import Mathlib

/-!
# ArduinoJson: variant comparator, element proxy and fallback operator

A shallow embedding of

* `src/ArduinoJson/Variant/VariantCompare.hpp` (comparers, `compare`, the relational
  operators, `ArrayComparer::visitArray`, `ObjectComparer::visitObject`, `operator|`),
* `src/ArduinoJson/Variant/VariantOperators.hpp` and `OrOperator.hpp` (`operator|`),
* `src/ArduinoJson/Array/ElementProxy.hpp` (reads, `set`, assignment and copy assignment
  of `ElementProxy`),
* `src/ArduinoJson/Array/ArrayImpl.hpp` (`add`, `createNestedArray`, `createNestedObject`).

A node (`VariantData`) is a value of a tagged union; a view (`VariantConstRef`) is a
possibly null pointer to a node, so it is an `Option VariantData` and `none` is the
unbound view.  A collection is the list of its slots in link order.  Dereferencing a
null slot pointer has no defined result: the functions that can do so return `Option`
and `none` stands for that fault.  A method that may allocate is a function from the
arena and the array to its result, the arena and the array afterwards.
-/

namespace ArduinoJson

/-! ## Data model -/

/-- Contents of a character buffer, one natural number (0..255) per byte. -/
abbrev Bytes := List Nat

/-- Modelled from the spec: the enumeration `CompareResult` of
`Numbers/arithmeticCompare.hpp`, which is not among the sources.  `DIFFER` is the
"incomparable" outcome and is the value-initialised result `CompareResult()`. -/
inductive CompareResult where
  | DIFFER
  | EQUAL
  | GREATER
  | LESS
  deriving DecidableEq, Repr

/-- Modelled from the spec: the numeric codes of `CompareResult`
(`DIFFER = 0`, `EQUAL = 1`, `GREATER = 2`, `LESS = 4`), used as bit masks by
`operator<=` and `operator>=`. -/
def CompareResult.code : CompareResult → Nat
  | .DIFFER => 0
  | .EQUAL => 1
  | .GREATER => 2
  | .LESS => 4

/-- Modelled from the spec: the mask `COMPARE_RESULT_GREATER_OR_EQUAL = 3`. -/
def COMPARE_RESULT_GREATER_OR_EQUAL : Nat := 3

/-- Modelled from the spec: the mask `COMPARE_RESULT_LESS_OR_EQUAL = 5`. -/
def COMPARE_RESULT_LESS_OR_EQUAL : Nat := 5

/-- Value node: the tagged union of the spec's data model.  A string or raw payload is a
pointer with a size, so it may contain zero bytes.  An array is the list of the nodes of
its slots, an object the list of the (key, node) pairs of its slots; a key is the
content of a zero-terminated C string.  A node that aliases another one (`link`) is
visited as its target and is given by the value of the target. -/
inductive VariantData where
  | null
  | boolean (b : Bool)
  | signedInteger (i : Int)
  | unsignedInteger (u : Nat)
  | float (f : Float)
  | string (s : Bytes)
  | raw (s : Bytes)
  | array (elements : List VariantData)
  | object (members : List (Bytes × VariantData))

/-- Read-only view: a pointer to a node, `none` when the view is unbound. -/
abbrev VariantConstRef := Option VariantData

/-- The nine kinds of a node. -/
inductive Kind where
  | Null
  | Boolean
  | SignedInteger
  | UnsignedInteger
  | Float
  | String
  | Raw
  | Array
  | Object
  deriving DecidableEq, Repr

/-- Kind tag of a node. -/
def VariantData.kind : VariantData → Kind
  | .null => .Null
  | .boolean _ => .Boolean
  | .signedInteger _ => .SignedInteger
  | .unsignedInteger _ => .UnsignedInteger
  | .float _ => .Float
  | .string _ => .String
  | .raw _ => .Raw
  | .array _ => .Array
  | .object _ => .Object

/-- Kinds handled by the numeric `Comparer<T>`. -/
def Kind.isNumeric : Kind → Bool
  | .Boolean => true
  | .SignedInteger => true
  | .UnsignedInteger => true
  | .Float => true
  | _ => false

/-! ## Helpers of the comparers -/

/-- Content seen through a bare `const char*`: the bytes before the first zero byte
(what `adaptString(const char*)` measures with `strlen`). -/
def cstr (s : Bytes) : Bytes :=
  s.takeWhile (fun b => b != 0)

/-- Modelled from the spec: `stringCompare` of `Strings/StringAdapters.hpp`, which is not
among the sources: byte-wise lexicographic comparison of two sized strings; negative,
zero or positive. -/
def stringCompare : Bytes → Bytes → Int
  | [], [] => 0
  | [], _ :: _ => -1
  | _ :: _, [] => 1
  | a :: s1, b :: s2 => if a != b then (a : Int) - (b : Int) else stringCompare s1 s2

/-- The C library `memcmp` on the first `size` bytes of two buffers. -/
def memcmp : Bytes → Bytes → Nat → Int
  | a :: s1, b :: s2, size + 1 => if a != b then (a : Int) - (b : Int) else memcmp s1 s2 size
  | _, _, _ => 0

/-- Modelled from the spec: `arithmeticCompare<T>(lhs, rhs)` on one type, from
`Numbers/arithmeticCompare.hpp`, which is not among the sources. -/
def arithmeticCompare {α : Type} [LT α] [∀ a b : α, Decidable (a < b)] (lhs rhs : α) :
    CompareResult :=
  if lhs < rhs then .LESS
  else if lhs > rhs then .GREATER
  else .EQUAL

/-- Modelled from the spec: `arithmeticCompare(Integer, UInt)`, the mixed-sign-safe
comparison: a negative signed value is less than every unsigned value. -/
def arithmeticCompareSU (lhs : Int) (rhs : Nat) : CompareResult :=
  if lhs < 0 then .LESS else arithmeticCompare lhs.toNat rhs

/-- Modelled from the spec: `arithmeticCompare(UInt, Integer)`, the mixed-sign-safe
comparison: every unsigned value is greater than a negative signed value. -/
def arithmeticCompareUS (lhs : Nat) (rhs : Int) : CompareResult :=
  if rhs < 0 then .GREATER else arithmeticCompare lhs rhs.toNat

/-- Modelled from the spec: `CollectionData::getMember(key)`, which is not among the
sources: the node of the first slot whose key equals `key`, a null pointer when there is
none. -/
def getMember : List (Bytes × VariantData) → Bytes → VariantConstRef
  | [], _ => none
  | (k, v) :: next, key => if k = key then some v else getMember next key

/-! ## Comparers (`VariantCompare.hpp`, lines 18-119) -/

/-- The comparison strategies other than `VariantComparer`, each with its right-hand
operand: `Comparer<T>` for a string type (`none` is a null string), the numeric
`Comparer<T>` (one constructor per class of `T`), `NullComparer`, `ArrayComparer`,
`ObjectComparer` and `RawComparer`. -/
inductive Comparer where
  | string (rhs : Option Bytes)
  | float (rhs : Float)
  | signed (rhs : Int)
  | unsigned (rhs : Nat)
  | bool (rhs : Bool)
  | null
  | array (rhs : List VariantData)
  | object (rhs : List (Bytes × VariantData))
  | raw (rhsData : Bytes)

/-- Modelled from the spec: size and content of an adapted string; a null string has
size 0 (`stringCompare` only asserts that its arguments are not null). -/
def adaptString : Option Bytes → Bytes
  | none => []
  | some s => s

/-- The method `visitString(lhs, n)` of each strategy; strategies that do not override
it inherit `Visitor<CompareResult>::visitString`, which returns `CompareResult()`. -/
def Comparer.visitString (c : Comparer) (lhs : Bytes) : CompareResult :=
  match c with
  | .string rhs =>
    let i := stringCompare (adaptString rhs) lhs
    if i < 0 then .GREATER
    else if i > 0 then .LESS
    else .EQUAL
  | _ => .DIFFER

/-- The method `visitNull()` of each strategy. -/
def Comparer.visitNull (c : Comparer) : CompareResult :=
  match c with
  | .string rhs => if rhs.isNone then .EQUAL else .DIFFER
  | .null => .EQUAL
  | _ => .DIFFER

/-- The method `visitFloat(lhs)` of each strategy; an integral right operand is
converted to `double`. -/
def Comparer.visitFloat (c : Comparer) (lhs : Float) : CompareResult :=
  match c with
  | .float rhs => arithmeticCompare lhs rhs
  | .signed rhs => arithmeticCompare lhs (Float.ofInt rhs)
  | .unsigned rhs => arithmeticCompare lhs (Float.ofNat rhs)
  | .bool rhs => arithmeticCompare lhs (Float.ofNat rhs.toNat)
  | _ => .DIFFER

/-- The method `visitSignedInteger(lhs)` of each strategy. -/
def Comparer.visitSignedInteger (c : Comparer) (lhs : Int) : CompareResult :=
  match c with
  | .float rhs => arithmeticCompare (Float.ofInt lhs) rhs
  | .signed rhs => arithmeticCompare lhs rhs
  | .unsigned rhs => arithmeticCompareSU lhs rhs
  | .bool rhs => arithmeticCompare lhs (rhs.toNat : Int)
  | _ => .DIFFER

/-- The method `visitUnsignedInteger(lhs)` of each strategy. -/
def Comparer.visitUnsignedInteger (c : Comparer) (lhs : Nat) : CompareResult :=
  match c with
  | .float rhs => arithmeticCompare (Float.ofNat lhs) rhs
  | .signed rhs => arithmeticCompareUS lhs rhs
  | .unsigned rhs => arithmeticCompare lhs rhs
  | .bool rhs => arithmeticCompare lhs rhs.toNat
  | _ => .DIFFER

/-- The method `visitBoolean(lhs)` of each strategy: the numeric comparer forwards to
`visitUnsignedInteger(static_cast<UInt>(lhs))`. -/
def Comparer.visitBoolean (c : Comparer) (lhs : Bool) : CompareResult :=
  match c with
  | .float _ => c.visitUnsignedInteger lhs.toNat
  | .signed _ => c.visitUnsignedInteger lhs.toNat
  | .unsigned _ => c.visitUnsignedInteger lhs.toNat
  | .bool _ => c.visitUnsignedInteger lhs.toNat
  | _ => .DIFFER

/-- The method `visitRawJson(lhsData, lhsSize)` of each strategy; `RawComparer` compares
the first `min(lhsSize, rhsSize)` bytes. -/
def Comparer.visitRawJson (c : Comparer) (lhsData : Bytes) : CompareResult :=
  match c with
  | .raw rhsData =>
    let size := if rhsData.length < lhsData.length then rhsData.length else lhsData.length
    let n := memcmp lhsData rhsData size
    if n < 0 then .LESS
    else if n > 0 then .GREATER
    else .EQUAL
  | _ => .DIFFER

/-! ## `VariantComparer` (lines 121-184) -/

/-- The strategy that `VariantComparer::visitX(lhs)` builds from the visited node:
`ArrayComparer(lhs)`, `ObjectComparer(lhs)`, `Comparer<Float>(lhs)`,
`Comparer<const char*>(lhs)` (the size is dropped, so the string ends at its first zero
byte), `RawComparer(lhsData, lhsSize)`, `Comparer<Integer>`, `Comparer<UInt>`,
`Comparer<bool>` and `NullComparer`.  An unbound view is visited as null. -/
def VariantComparer.comparer : VariantConstRef → Comparer
  | none => .null
  | some .null => .null
  | some (.boolean lhs) => .bool lhs
  | some (.signedInteger lhs) => .signed lhs
  | some (.unsignedInteger lhs) => .unsigned lhs
  | some (.float lhs) => .float lhs
  | some (.string lhs) => .string (some (cstr lhs))
  | some (.raw lhsData) => .raw lhsData
  | some (.array lhs) => .array lhs
  | some (.object lhs) => .object lhs

/-- The switch of `VariantComparer::accept`: `GREATER` and `LESS` are exchanged, the
other results are returned as they are. -/
def VariantComparer.reverse : CompareResult → CompareResult
  | .GREATER => .LESS
  | .LESS => .GREATER
  | reversedResult => reversedResult

/-! ## Visiting a node (`accept`), `ArrayComparer::visitArray`, `ObjectComparer::visitObject` -/

mutual
/-- Modelled from the spec: `VariantData::accept(visitor)`, which is not among the
sources: the visitor method of the node's kind is called once.  The array and object
cases are the inherited `visitArray`/`visitObject` (returning `CompareResult()`) unless
the strategy is `ArrayComparer`, respectively `ObjectComparer`. -/
def VariantData.accept : VariantData → Comparer → Option CompareResult
  | .null, c => some c.visitNull
  | .boolean b, c => some (c.visitBoolean b)
  | .signedInteger i, c => some (c.visitSignedInteger i)
  | .unsignedInteger u, c => some (c.visitUnsignedInteger u)
  | .float f, c => some (c.visitFloat f)
  | .string s, c => some (c.visitString s)
  | .raw s, c => some (c.visitRawJson s)
  | .array lhs, .array rhs => ArrayComparer.visitArray lhs rhs
  | .array _, _ => some .DIFFER
  | .object lhs, .object rhs => ObjectComparer.visitObject rhs lhs 0
  | .object _, _ => some .DIFFER
/-- The loop of `ArrayComparer::visitArray(lhs)` (lines 325-337) from the slots `slot1`
of `lhs` and `slot2` of `_rhs`.  `val1 != val2` is `compare(val2, val1) != EQUAL`, that
is `val2.accept(VariantComparer(val1))`, which visits `val1` with the strategy built
from `val2` and reverses the result.  When one slot is null its view is unbound; if the
two views then compare equal, the step `slot->next()` dereferences the null slot and
the result is `none`. -/
def ArrayComparer.visitArray : List VariantData → List VariantData → Option CompareResult
  | [], [] => some .EQUAL
  | val1 :: next1, val2 :: next2 =>
    match VariantData.accept val1 (VariantComparer.comparer (some val2)) with
    | none => none
    | some reversedResult =>
      if VariantComparer.reverse reversedResult != .EQUAL then some .DIFFER
      else ArrayComparer.visitArray next1 next2
  | [], val2 :: _ =>
    if VariantComparer.reverse (VariantComparer.comparer (some val2)).visitNull != .EQUAL
    then some .DIFFER
    else none
  | val1 :: _, [] =>
    match VariantData.accept val1 (VariantComparer.comparer none) with
    | none => none
    | some reversedResult =>
      if VariantComparer.reverse reversedResult != .EQUAL then some .DIFFER
      else none
/-- The loop of `ObjectComparer::visitObject(lhs)` (lines 339-351) from slot `slot` of
`lhs`, with the running `count`: each value of `lhs` is compared with
`rhs.getMember(key)`, and at the end `count` is compared with `rhs.size()`. -/
def ObjectComparer.visitObject (rhs : List (Bytes × VariantData)) :
    List (Bytes × VariantData) → Nat → Option CompareResult
  | [], count => some (if count = rhs.length then .EQUAL else .DIFFER)
  | (key, val1) :: next, count =>
    match VariantData.accept val1 (VariantComparer.comparer (getMember rhs key)) with
    | none => none
    | some reversedResult =>
      if VariantComparer.reverse reversedResult != .EQUAL then some .DIFFER
      else ObjectComparer.visitObject rhs next (count + 1)
end

/-- Modelled from the spec: `VariantConstRef::accept(visitor)` (`variantAccept`), which
is not among the sources: an unbound view is visited as null. -/
def VariantConstRef.accept (v : VariantConstRef) (c : Comparer) : Option CompareResult :=
  match v with
  | none => some c.visitNull
  | some data => data.accept c

/-- The private `VariantComparer::accept(comparer)` (lines 172-183): `rhs` accepts the
strategy and the result is reversed. -/
def VariantComparer.accept (rhs : VariantConstRef) (comparer : Comparer) :
    Option CompareResult :=
  (VariantConstRef.accept rhs comparer).map VariantComparer.reverse

/-! ## `compare` and the relational operators (lines 186-323) -/

/-- Right operand of `compare` and of the operators, by static type: the null pointer
constant, a string (`none` is a null pointer), a floating-point, signed, unsigned or
boolean value, or a visitable operand (view or proxy) given by the view it converts
to. -/
inductive Operand where
  | nullptr
  | string (rhs : Option Bytes)
  | float (rhs : Float)
  | signed (rhs : Int)
  | unsigned (rhs : Nat)
  | bool (rhs : Bool)
  | variant (rhs : VariantConstRef)

/-- The function `compare(lhs, rhs)` (lines 193-197): `lhs` accepts `Comparer<T2>(rhs)`.
For a visitable `T2` the comparer is a `VariantComparer`, whose visit method builds the
strategy from `lhs` and hands it to the private `accept`. -/
def compare (lhs : VariantConstRef) (rhs : Operand) : Option CompareResult :=
  match rhs with
  | .nullptr => lhs.accept .null
  | .string s => lhs.accept (.string s)
  | .float f => lhs.accept (.float f)
  | .signed i => lhs.accept (.signed i)
  | .unsigned u => lhs.accept (.unsigned u)
  | .bool b => lhs.accept (.bool b)
  | .variant v => VariantComparer.accept v (VariantComparer.comparer lhs)

/-- Test `(r & mask) != 0` of `operator<=` and `operator>=`. -/
def CompareResult.test (r : CompareResult) (mask : Nat) : Bool :=
  (r.code &&& mask) != 0

/-- The operator `value == VariantConstRef` (lines 199-207). -/
def eqValueVariant (lhs : Operand) (rhs : VariantConstRef) : Option Bool :=
  (compare rhs lhs).map (fun r => r == .EQUAL)

/-- The operator `VariantConstRef == value` (lines 209-218). -/
def eqVariantValue (lhs : VariantConstRef) (rhs : Operand) : Option Bool :=
  (compare lhs rhs).map (fun r => r == .EQUAL)

/-- The operator `value != VariantConstRef` (lines 220-228). -/
def neValueVariant (lhs : Operand) (rhs : VariantConstRef) : Option Bool :=
  (compare rhs lhs).map (fun r => r != .EQUAL)

/-- The operator `VariantConstRef != value` (lines 230-239). -/
def neVariantValue (lhs : VariantConstRef) (rhs : Operand) : Option Bool :=
  (compare lhs rhs).map (fun r => r != .EQUAL)

/-- The operator `value < VariantConstRef` (lines 241-249). -/
def ltValueVariant (lhs : Operand) (rhs : VariantConstRef) : Option Bool :=
  (compare rhs lhs).map (fun r => r == .GREATER)

/-- The operator `VariantConstRef < value` (lines 251-260). -/
def ltVariantValue (lhs : VariantConstRef) (rhs : Operand) : Option Bool :=
  (compare lhs rhs).map (fun r => r == .LESS)

/-- The operator `value <= VariantConstRef` (lines 262-270). -/
def leValueVariant (lhs : Operand) (rhs : VariantConstRef) : Option Bool :=
  (compare rhs lhs).map (fun r => r.test COMPARE_RESULT_GREATER_OR_EQUAL)

/-- The operator `VariantConstRef <= value` (lines 272-281). -/
def leVariantValue (lhs : VariantConstRef) (rhs : Operand) : Option Bool :=
  (compare lhs rhs).map (fun r => r.test COMPARE_RESULT_LESS_OR_EQUAL)

/-- The operator `value > VariantConstRef` (lines 283-291). -/
def gtValueVariant (lhs : Operand) (rhs : VariantConstRef) : Option Bool :=
  (compare rhs lhs).map (fun r => r == .LESS)

/-- The operator `VariantConstRef > value` (lines 293-302). -/
def gtVariantValue (lhs : VariantConstRef) (rhs : Operand) : Option Bool :=
  (compare lhs rhs).map (fun r => r == .GREATER)

/-- The operator `value >= VariantConstRef` (lines 304-312). -/
def geValueVariant (lhs : Operand) (rhs : VariantConstRef) : Option Bool :=
  (compare rhs lhs).map (fun r => r.test COMPARE_RESULT_LESS_OR_EQUAL)

/-- The operator `VariantConstRef >= value` (lines 314-323). -/
def geVariantValue (lhs : VariantConstRef) (rhs : Operand) : Option Bool :=
  (compare lhs rhs).map (fun r => r.test COMPARE_RESULT_GREATER_OR_EQUAL)

/-- The expression `lhs == rhs` by static type of the right operand: for a visitable
`rhs` only the overload `value == VariantConstRef` is viable (the overload with the view
on the left is disabled by `enable_if<!IsVisitable<T>>`), so `lhs` is the value and
`compare(rhs, lhs)` is evaluated. -/
def opEq (lhs : VariantConstRef) (rhs : Operand) : Option Bool :=
  match rhs with
  | .variant v => eqValueVariant (.variant lhs) v
  | _ => eqVariantValue lhs rhs

/-- The expression `lhs != rhs`, resolved as in `opEq`. -/
def opNe (lhs : VariantConstRef) (rhs : Operand) : Option Bool :=
  match rhs with
  | .variant v => neValueVariant (.variant lhs) v
  | _ => neVariantValue lhs rhs

/-- The expression `lhs < rhs`, resolved as in `opEq`. -/
def opLt (lhs : VariantConstRef) (rhs : Operand) : Option Bool :=
  match rhs with
  | .variant v => ltValueVariant (.variant lhs) v
  | _ => ltVariantValue lhs rhs

/-- The expression `lhs <= rhs`, resolved as in `opEq`. -/
def opLe (lhs : VariantConstRef) (rhs : Operand) : Option Bool :=
  match rhs with
  | .variant v => leValueVariant (.variant lhs) v
  | _ => leVariantValue lhs rhs

/-- The expression `lhs > rhs`, resolved as in `opEq`. -/
def opGt (lhs : VariantConstRef) (rhs : Operand) : Option Bool :=
  match rhs with
  | .variant v => gtValueVariant (.variant lhs) v
  | _ => gtVariantValue lhs rhs

/-- The expression `lhs >= rhs`, resolved as in `opEq`. -/
def opGe (lhs : VariantConstRef) (rhs : Operand) : Option Bool :=
  match rhs with
  | .variant v => geValueVariant (.variant lhs) v
  | _ => geVariantValue lhs rhs

/-! ## Conversions, `ElementProxy` (read path) and `operator|` -/

/-- Modelled from the spec: `Converter<T>` (the pair `is<T>()` / `as<T>()` of a view),
which is not among the sources: `checkJson` tells whether the dynamic kind of the view
matches `T`, `fromJson` is the coerced value. -/
structure Converter (T : Type) where
  checkJson : VariantConstRef → Bool
  fromJson : VariantConstRef → T

/-- The method `is<T>()` of a view. -/
def VariantConstRef.is {T : Type} (v : VariantConstRef) (cv : Converter T) : Bool :=
  cv.checkJson v

/-- The method `as<T>()` of a view. -/
def VariantConstRef.as {T : Type} (v : VariantConstRef) (cv : Converter T) : T :=
  cv.fromJson v

/-- Modelled from the spec: `VariantData::asBoolean()` behind `as<bool>()`, which is not
among the sources: the stored flag of a boolean node; a read of a node of any other kind
is a read of an incompatible kind, which resolves to the default of `bool`, `false`. -/
def VariantData.asBoolean : VariantData → Bool
  | .boolean b => b
  | _ => false

/-- Modelled from the spec: `Converter<bool>`, which is not among the sources: `is<bool>()`
holds for a boolean node only; `as<bool>()` is `asBoolean()` of a bound view and `false`,
the default of `bool`, of an unbound view. -/
def boolConverter : Converter Bool :=
  Converter.mk
    (fun v => match v with
      | some (.boolean _) => true
      | _ => false)
    (fun v => match v with
      | some data => data.asBoolean
      | none => false)

/-- Modelled from the spec: `Converter<T>` for a signed integral type `T` whose values
are `lo..hi`, which is not among the sources: `is<T>()` holds for an integer node whose
value fits in `T`; `as<T>()` is that value, 0 (the default of `T`) when it does not fit
and for an unbound, null, raw, array or object node, 0 or 1 for a boolean.  The
conversions of a floating-point value and of a string are parameters. -/
def integralConverter (lo hi : Int) (ofFloat : Float → Int) (ofString : Bytes → Int) :
    Converter Int :=
  Converter.mk
    (fun v => match v with
      | some (.signedInteger i) => decide (lo ≤ i ∧ i ≤ hi)
      | some (.unsignedInteger u) => decide ((u : Int) ≤ hi)
      | _ => false)
    (fun v => match v with
      | some (.boolean b) => (b.toNat : Int)
      | some (.signedInteger i) => if lo ≤ i ∧ i ≤ hi then i else 0
      | some (.unsignedInteger u) => if (u : Int) ≤ hi then (u : Int) else 0
      | some (.float f) => ofFloat f
      | some (.string s) => ofString s
      | _ => 0)

/-- Modelled from the spec: `Converter<const char*>`, which is not among the sources:
`is<const char*>()` holds for a string node; `as<const char*>()` is its buffer, a null
pointer (`none`) for every other view. -/
def cstringConverter : Converter (Option Bytes) :=
  Converter.mk
    (fun v => match v with
      | some (.string _) => true
      | _ => false)
    (fun v => match v with
      | some (.string s) => some s
      | _ => none)

/-- Modelled from the spec: `getElementConst(index)` and `getElement(index)` of an array
handle, which are not among the sources: the non-allocating resolution, the node of slot
`index`, unbound when the handle is unbound or has no such slot. -/
def getElementConst (array : Option (List VariantData)) (index : Nat) : VariantConstRef :=
  match array with
  | none => none
  | some elements => elements[index]?

/-- The class `ElementProxy<TArray>`: the pair `(_array, _index)`.  The array handle is
given by the list of its elements, `none` when the handle is unbound. -/
structure ElementProxy where
  array : Option (List VariantData)
  index : Nat

/-- The method `getUpstreamElementConst()` (lines 222-224). -/
def ElementProxy.getUpstreamElementConst (p : ElementProxy) : VariantConstRef :=
  getElementConst p.array p.index

/-- The method `isNull()` (lines 66-68). -/
def ElementProxy.isNull (p : ElementProxy) : Bool :=
  match p.getUpstreamElementConst with
  | none => true
  | some .null => true
  | some _ => false

/-- The method `as<T>()` (lines 70-76), for a `T` that needs no writeable view. -/
def ElementProxy.as {T : Type} (p : ElementProxy) (cv : Converter T) : T :=
  p.getUpstreamElementConst.as cv

/-- The method `is<T>()` (lines 103-108), for a `T` that needs no writeable view. -/
def ElementProxy.is {T : Type} (p : ElementProxy) (cv : Converter T) : Bool :=
  p.getUpstreamElementConst.is cv

/-- Scalar `operator|(VariantConstRef, const T&)` of `OrOperator.hpp` (lines 18-28). -/
def OrOperator.orScalar {T : Type} (cv : Converter T) (variant : VariantConstRef)
    (defaultValue : T) : T :=
  if variant.is cv then variant.as cv else defaultValue

/-- Scalar `operator|(const TVariant&, const T&)` of `VariantOperators.hpp`
(lines 28-36) for `TVariant = VariantConstRef`. -/
def VariantOperators.orScalar {T : Type} (cv : Converter T) (variant : VariantConstRef)
    (defaultValue : T) : T :=
  if variant.is cv then variant.as cv else defaultValue

/-- Scalar `operator|(const TVariant&, const T&)` of `VariantOperators.hpp`
(lines 28-36) for `TVariant = ElementProxy`. -/
def ElementProxy.orScalar {T : Type} (cv : Converter T) (variant : ElementProxy)
    (defaultValue : T) : T :=
  if variant.is cv then variant.as cv else defaultValue

/-- The overload `operator|(VariantConstRef, const char*)` of `OrOperator.hpp`
(lines 42-50); the default may be a null pointer. -/
def OrOperator.orCString (variant : VariantConstRef) (defaultValue : Option Bytes) :
    Option Bytes :=
  if variant.is cstringConverter then variant.as cstringConverter else defaultValue

/-- The overload `operator|(const TVariant&, const char*)` of `VariantOperators.hpp`
(lines 39-45) for `TVariant = ElementProxy`. -/
def ElementProxy.orCString (variant : ElementProxy) (defaultValue : Option Bytes) :
    Option Bytes :=
  if variant.is cstringConverter then variant.as cstringConverter else defaultValue

/-- Kind of the node behind a view; an unbound view is visited as null. -/
def VariantConstRef.kind : VariantConstRef → Kind
  | none => .Null
  | some data => data.kind

/-- Scalar kinds without a floating-point payload: null, boolean, signed or unsigned
integer, string. -/
def VariantData.isScalar : VariantData → Bool
  | .null => true
  | .boolean _ => true
  | .signedInteger _ => true
  | .unsignedInteger _ => true
  | .string _ => true
  | _ => false

/-- Integer held by a node of kind Boolean (0 or 1), SignedInteger or UnsignedInteger. -/
def VariantData.integralValue : VariantData → Option Int
  | .boolean b => some (b.toNat : Int)
  | .signedInteger i => some i
  | .unsignedInteger u => some (u : Int)
  | _ => none

/-! ## Arena, reads and writes through `ElementProxy`, `ArrayShortcuts` -/

/-- Modelled from the spec: the arena (`MemoryPool`), which is not among the sources.
Only its capacity to allocate slots is observed: `free` is the number of slots that
`allocateNode` can still deliver. -/
structure MemoryPool where
  free : Nat
  deriving DecidableEq, Repr

/-- Modelled from the spec: `CollectionData::addSlot(pool)`, which is not among the
sources: one slot holding null is linked at the end when the arena delivers it;
otherwise nothing changes and the result is a null pointer (`false`). -/
def addSlot (pool : MemoryPool) (elements : List VariantData) :
    MemoryPool × List VariantData × Bool :=
  if pool.free = 0 then (pool, elements, false)
  else (MemoryPool.mk (pool.free - 1), elements ++ [.null], true)

/-- Modelled from the spec: the loop of the allocating resolution that calls `addSlot`
`count` times; slots added before the arena is exhausted stay in the list. -/
def addSlots : Nat → MemoryPool → List VariantData → MemoryPool × List VariantData × Bool
  | 0, pool, elements => (pool, elements, true)
  | count + 1, pool, elements =>
    match addSlot pool elements with
    | (pool2, elements2, true) => addSlots count pool2 elements2
    | (pool2, elements2, false) => (pool2, elements2, false)

/-- Modelled from the spec: `getOrAddElement(index)` of an array handle, which is not
among the sources: the allocating resolution.  Slot `index` is returned when it exists;
otherwise the slots up to position `index` are created, since positions are counted
along the linked sequence of slots.  The flag tells whether the returned view is bound
to slot `index`; it is unbound when the handle is unbound or the arena is exhausted. -/
def getOrAddElement (pool : MemoryPool) (array : Option (List VariantData)) (index : Nat) :
    MemoryPool × Option (List VariantData) × Bool :=
  match array with
  | none => (pool, none, false)
  | some elements =>
    if index < elements.length then (pool, some elements, true)
    else
      match addSlots (index + 1 - elements.length) pool elements with
      | (pool2, elements2, bound) => (pool2, some elements2, bound)

/-- Result of a method of a proxy run in a state: the value it returns, the arena and
the proxy (its array handle and index) afterwards. -/
structure Step (R : Type) where
  result : R
  pool : MemoryPool
  proxy : ElementProxy

/-- The method `getUpstreamElementConst()` (lines 222-224) as a step: `getElementConst`
takes no arena and a constant array. -/
def ElementProxy.getUpstreamElementConstStep (pool : MemoryPool) (p : ElementProxy) :
    Step VariantConstRef :=
  Step.mk (getElementConst p.array p.index) pool p

/-- The method `getUpstreamElement()` (lines 218-220) as a step: `getElement` of an array
handle resolves without allocating. -/
def ElementProxy.getUpstreamElementStep (pool : MemoryPool) (p : ElementProxy) :
    Step VariantConstRef :=
  Step.mk (getElementConst p.array p.index) pool p

/-- The method `getOrAddUpstreamElement()` (lines 226-228) as a step; the result tells
whether the returned view is bound to slot `_index`. -/
def ElementProxy.getOrAddUpstreamElementStep (pool : MemoryPool) (p : ElementProxy) :
    Step Bool :=
  match getOrAddElement pool p.array p.index with
  | (pool2, array2, bound) => Step.mk bound pool2 (ElementProxy.mk array2 p.index)

/-- Modelled from the spec: `isNull()` of a view, which is not among the sources: true
for an unbound view and for a null node. -/
def VariantConstRef.isNull : VariantConstRef → Bool
  | none => true
  | some .null => true
  | some _ => false

/-- Modelled from the spec: `size()` of a view, which is not among the sources: the
number of slots of an array or object, 0 for every other view. -/
def VariantConstRef.size : VariantConstRef → Nat
  | some (.array elements) => elements.length
  | some (.object members) => members.length
  | _ => 0

/-- Modelled from the spec: `memoryUsage()` of a view, which is not among the sources:
0 for an unbound view; the arena bytes of a node are the parameter `usage`. -/
def VariantConstRef.memoryUsage (usage : VariantData → Nat) : VariantConstRef → Nat
  | none => 0
  | some data => usage data

/-- The method `size()` (lines 136-138). -/
def ElementProxy.size (p : ElementProxy) : Nat :=
  p.getUpstreamElementConst.size

/-- The method `memoryUsage()` (lines 140-142). -/
def ElementProxy.memoryUsage (usage : VariantData → Nat) (p : ElementProxy) : Nat :=
  p.getUpstreamElementConst.memoryUsage usage

/-- The method `isNull()` (lines 66-68) as a step. -/
def ElementProxy.isNullStep (pool : MemoryPool) (p : ElementProxy) : Step Bool :=
  let r := p.getUpstreamElementConstStep pool
  Step.mk r.result.isNull r.pool r.proxy

/-- The method `size()` (lines 136-138) as a step. -/
def ElementProxy.sizeStep (pool : MemoryPool) (p : ElementProxy) : Step Nat :=
  let r := p.getUpstreamElementConstStep pool
  Step.mk r.result.size r.pool r.proxy

/-- The method `memoryUsage()` (lines 140-142) as a step. -/
def ElementProxy.memoryUsageStep (usage : VariantData → Nat) (pool : MemoryPool)
    (p : ElementProxy) : Step Nat :=
  let r := p.getUpstreamElementConstStep pool
  Step.mk (r.result.memoryUsage usage) r.pool r.proxy

/-- The method `as<T>()` (lines 70-76) as a step, for a `T` that needs no writeable
view. -/
def ElementProxy.asStep {T : Type} (cv : Converter T) (pool : MemoryPool)
    (p : ElementProxy) : Step T :=
  let r := p.getUpstreamElementConstStep pool
  Step.mk (r.result.as cv) r.pool r.proxy

/-- The method `as<T>()` (lines 78-82) as a step, for a `T` that needs a writeable view:
it resolves with `getUpstreamElement()`. -/
def ElementProxy.asWriteableStep {T : Type} (cv : Converter T) (pool : MemoryPool)
    (p : ElementProxy) : Step T :=
  let r := p.getUpstreamElementStep pool
  Step.mk (r.result.as cv) r.pool r.proxy

/-- The method `is<T>()` (lines 103-108) as a step, for a `T` that needs no writeable
view. -/
def ElementProxy.isStep {T : Type} (cv : Converter T) (pool : MemoryPool)
    (p : ElementProxy) : Step Bool :=
  let r := p.getUpstreamElementConstStep pool
  Step.mk (r.result.is cv) r.pool r.proxy

/-- The method `is<T>()` (lines 96-101) as a step, for a `T` that needs a writeable view:
it resolves with `getUpstreamElement()`. -/
def ElementProxy.isWriteableStep {T : Type} (cv : Converter T) (pool : MemoryPool)
    (p : ElementProxy) : Step Bool :=
  let r := p.getUpstreamElementStep pool
  Step.mk (r.result.is cv) r.pool r.proxy

/-- Modelled from the spec: `VariantRef::set(value)` for a scalar value, which is not
among the sources, on the view returned by the allocating resolution: the node of slot
`index` is overwritten with the node `value` that the converter of the scalar type
builds; nothing is allocated. -/
def setElement (array : Option (List VariantData)) (index : Nat) (value : VariantData) :
    Option (List VariantData) :=
  array.map (fun elements => elements.set index value)

/-- The method `set(value)` (lines 124-134) for a scalar value, given by the node its
converter stores: `getOrAddUpstreamElement().set(value)`.  A `set` on an unbound view
returns false. -/
def ElementProxy.set (pool : MemoryPool) (p : ElementProxy) (value : VariantData) :
    Step Bool :=
  let r := p.getOrAddUpstreamElementStep pool
  if r.result then
    Step.mk true r.pool (ElementProxy.mk (setElement r.proxy.array p.index value) p.index)
  else Step.mk false r.pool r.proxy

/-- The assignment `operator=(const T&)` (lines 43-60) for a scalar value: the same as
`set`, the success flag is dropped and the proxy itself is returned. -/
def ElementProxy.assign (pool : MemoryPool) (p : ElementProxy) (value : VariantData) :
    Step Unit :=
  let r := p.set pool value
  Step.mk () r.pool r.proxy

/-- Modelled from the spec: what every `Converter<T>` does on an unbound view: `is<T>()`
is false and `as<T>()` is the default value of `T`. -/
def Converter.UnboundIsDefault {T : Type} (cv : Converter T) (defaultValue : T) : Prop :=
  cv.checkJson none = false ∧ cv.fromJson none = defaultValue

/-- Modelled from the spec: `Converter<T>` for an unsigned integral type `T` whose values
are `0..hi`, which is not among the sources: `is<T>()` holds for an integer node whose
value fits in `T`; `as<T>()` is that value, 0 when it does not fit and for an unbound,
null, raw, array or object node, 0 or 1 for a boolean.  The conversions of a
floating-point value and of a string are parameters. -/
def unsignedConverter (hi : Nat) (ofFloat : Float → Nat) (ofString : Bytes → Nat) :
    Converter Nat :=
  Converter.mk
    (fun v => match v with
      | some (.signedInteger i) => decide (0 ≤ i ∧ i ≤ (hi : Int))
      | some (.unsignedInteger u) => decide (u ≤ hi)
      | _ => false)
    (fun v => match v with
      | some (.boolean b) => b.toNat
      | some (.signedInteger i) => if 0 ≤ i ∧ i ≤ (hi : Int) then i.toNat else 0
      | some (.unsignedInteger u) => if u ≤ hi then u else 0
      | some (.float f) => ofFloat f
      | some (.string s) => ofString s
      | _ => 0)

/-- Modelled from the spec: `Converter<double>`, which is not among the sources:
`is<double>()` holds for a floating-point or integer node; `as<double>()` is the stored
value, converted when it is an integer or a boolean, 0 for an unbound, null, raw, array or
object node.  The conversion of a string is a parameter. -/
def floatConverter (ofString : Bytes → Float) : Converter Float :=
  Converter.mk
    (fun v => match v with
      | some (.float _) => true
      | some (.signedInteger _) => true
      | some (.unsignedInteger _) => true
      | _ => false)
    (fun v => match v with
      | some (.boolean b) => Float.ofNat b.toNat
      | some (.signedInteger i) => Float.ofInt i
      | some (.unsignedInteger u) => Float.ofNat u
      | some (.float f) => f
      | some (.string s) => ofString s
      | _ => 0)

/-- Modelled from the spec: the node that `set(value)` stores for a scalar `value` of
type `T` (`Converter<T>::toJson`, which is not among the sources), together with the
converter that reads it back.  Storing a scalar allocates nothing. -/
structure ScalarType (T : Type) where
  converter : Converter T
  toJson : T → VariantData

/-- Modelled from the spec: `bool`, stored as a Boolean node. -/
def boolType : ScalarType Bool :=
  ScalarType.mk boolConverter (fun b => .boolean b)

/-- Modelled from the spec: a signed integral type with values `lo..hi`, stored as a
SignedInteger node. -/
def integralType (lo hi : Int) (ofFloat : Float → Int) (ofString : Bytes → Int) :
    ScalarType Int :=
  ScalarType.mk (integralConverter lo hi ofFloat ofString) (fun i => .signedInteger i)

/-- Modelled from the spec: an unsigned integral type with values `0..hi`, stored as an
UnsignedInteger node. -/
def unsignedType (hi : Nat) (ofFloat : Float → Nat) (ofString : Bytes → Nat) :
    ScalarType Nat :=
  ScalarType.mk (unsignedConverter hi ofFloat ofString) (fun u => .unsignedInteger u)

/-- Modelled from the spec: `double`, stored as a Float node. -/
def floatType (ofString : Bytes → Float) : ScalarType Float :=
  ScalarType.mk (floatConverter ofString) (fun f => .float f)

/-- Modelled from the spec: a value `v` of a scalar type is read back as it was stored:
on the node built from `v`, `is<T>()` holds, `as<T>()` is `v`, and the node is not
null. -/
def ScalarType.RoundTrip {T : Type} (ty : ScalarType T) (v : T) : Prop :=
  ty.converter.checkJson (some (ty.toJson v)) = true ∧
  ty.converter.fromJson (some (ty.toJson v)) = v ∧
  VariantConstRef.isNull (some (ty.toJson v)) = false

/-- Number of slots of the array behind a proxy, 0 when its handle is unbound. -/
def ElementProxy.slotCount (p : ElementProxy) : Nat :=
  match p.array with
  | none => 0
  | some elements => elements.length

/-- Result of a method of an array handle run in a state: the value it returns, the
arena and the array afterwards. -/
structure ArrayStep (R : Type) where
  result : R
  pool : MemoryPool
  array : Option (List VariantData)

/-- Modelled from the spec: `variantAddElement(data, pool)`, which is not among the
sources: one slot holding null is appended to the array; the result is the position of
the new slot, to which the returned view is bound, or `none` for an unbound view, when
the handle is unbound or the arena is exhausted. -/
def variantAddElement (pool : MemoryPool) (array : Option (List VariantData)) :
    ArrayStep (Option Nat) :=
  match array with
  | none => ArrayStep.mk none pool none
  | some elements =>
    match addSlot pool elements with
    | (pool2, elements2, true) => ArrayStep.mk (some elements.length) pool2 (some elements2)
    | (pool2, elements2, false) => ArrayStep.mk none pool2 (some elements2)

/-- The method `ArrayShortcuts::add()` (`ArrayImpl.hpp`, lines 29-34): the view of a new
element, given by its position. -/
def ArrayShortcuts.add (pool : MemoryPool) (array : Option (List VariantData)) :
    ArrayStep (Option Nat) :=
  variantAddElement pool array

/-- The method `ArrayShortcuts::add(value)` (`ArrayImpl.hpp`, lines 36-46) for a scalar
value, given by the node its converter stores: `add().set(value)`. -/
def ArrayShortcuts.addValue (pool : MemoryPool) (array : Option (List VariantData))
    (value : VariantData) : ArrayStep Bool :=
  let r := ArrayShortcuts.add pool array
  match r.result with
  | none => ArrayStep.mk false r.pool r.array
  | some index => ArrayStep.mk true r.pool (setElement r.array index value)

/-- Modelled from the spec: `as<ArrayRef>()` of a view, which is not among the sources:
a pure read; the handle of the array that the node holds, the unbound handle (the default
of `ArrayRef`) when the view is unbound or the node holds something else. -/
def asArrayRef : VariantConstRef → Option (List VariantData)
  | some (.array elements) => some elements
  | _ => none

/-- Modelled from the spec: `as<ObjectRef>()` of a view, which is not among the sources:
a pure read; the handle of the object that the node holds, the unbound handle when the
view is unbound or the node holds something else. -/
def asObjectRef : VariantConstRef → Option (List (Bytes × VariantData))
  | some (.object members) => some members
  | _ => none

/-- View returned by `add()`: the node of the new slot, unbound when none was added. -/
def ArrayStep.view (r : ArrayStep (Option Nat)) : VariantConstRef :=
  match r.result with
  | none => none
  | some index => getElementConst r.array index

/-- The method `ArrayShortcuts::createNestedArray()` (`ArrayImpl.hpp`, lines 13-16):
`add().as<ArrayRef>()`. -/
def ArrayShortcuts.createNestedArray (pool : MemoryPool)
    (array : Option (List VariantData)) : ArrayStep (Option (List VariantData)) :=
  let r := ArrayShortcuts.add pool array
  ArrayStep.mk (asArrayRef r.view) r.pool r.array

/-- The method `ArrayShortcuts::createNestedObject()` (`ArrayImpl.hpp`, lines 18-21):
`add().as<ObjectRef>()`. -/
def ArrayShortcuts.createNestedObject (pool : MemoryPool)
    (array : Option (List VariantData)) : ArrayStep (Option (List (Bytes × VariantData))) :=
  let r := ArrayShortcuts.add pool array
  ArrayStep.mk (asObjectRef r.view) r.pool r.array

/-- The copy assignment `operator=(const this_type& src)` (`ElementProxy.hpp`,
lines 38-41) between two proxies of one array, `src` being the proxy for `srcIndex`:
`getOrAddUpstreamElement().set(src.as<VariantConstRef>())`.  The deep copy of a node
(`variantCopyFrom`, which is not among the sources) is the parameter `copyFrom`: from the
arena and the source node it gives the arena afterwards, the node that the destination
then holds, and the success flag; an unbound source sets the destination to null.  The
flag is dropped and the proxy itself is returned. -/
def ElementProxy.assignProxy
    (copyFrom : MemoryPool → VariantData → MemoryPool × VariantData × Bool)
    (pool : MemoryPool) (p : ElementProxy) (srcIndex : Nat) : Step Unit :=
  let r := p.getOrAddUpstreamElementStep pool
  if r.result then
    match (ElementProxy.mk r.proxy.array srcIndex).getUpstreamElementConst with
    | none =>
      Step.mk () r.pool (ElementProxy.mk (setElement r.proxy.array p.index .null) p.index)
    | some data =>
      match copyFrom r.pool data with
      | (pool2, copy, _) =>
        Step.mk () pool2 (ElementProxy.mk (setElement r.proxy.array p.index copy) p.index)
  else Step.mk () r.pool r.proxy

mutual
/-- Variants on which reflexivity of `compare` is proved: no floating-point value, no
zero byte inside a string, pairwise distinct keys in every object, at every depth. -/
def VariantData.isRegular : VariantData → Bool
  | .float _ => false
  | .string s => decide (0 ∉ s)
  | .array elements => VariantData.allRegular elements
  | .object members =>
    VariantData.membersRegular members && decide (members.map Prod.fst).Nodup
  | _ => true
/-- Every element of the list is regular. -/
def VariantData.allRegular : List VariantData → Bool
  | [] => true
  | v :: next => VariantData.isRegular v && VariantData.allRegular next
/-- Every value of the member list is regular. -/
def VariantData.membersRegular : List (Bytes × VariantData) → Bool
  | [] => true
  | (_, v) :: next => VariantData.isRegular v && VariantData.membersRegular next
end

/-! ## The other copies of `operator|` -/

/-- Scalar `operator|(VariantRef, const T&)` of `OrOperator.hpp` (lines 30-40), for a `T`
whose converter needs a writeable view. -/
def OrOperator.orScalarWriteable {T : Type} (cv : Converter T) (variant : VariantConstRef)
    (defaultValue : T) : T :=
  if variant.is cv then variant.as cv else defaultValue

/-- Scalar `operator|(VariantConstRef, const T&)` of `VariantCompare.hpp`
(lines 360-370). -/
def VariantCompare.orScalar {T : Type} (cv : Converter T) (variant : VariantConstRef)
    (defaultValue : T) : T :=
  if variant.is cv then variant.as cv else defaultValue

/-- Scalar `operator|(VariantRef, const T&)` of `VariantCompare.hpp` (lines 372-382), for
a `T` whose converter needs a writeable view. -/
def VariantCompare.orScalarWriteable {T : Type} (cv : Converter T)
    (variant : VariantConstRef) (defaultValue : T) : T :=
  if variant.is cv then variant.as cv else defaultValue

/-- The overload `operator|(VariantConstRef, const char*)` of `VariantCompare.hpp`
(lines 386-392). -/
def VariantCompare.orCString (variant : VariantConstRef) (defaultValue : Option Bytes) :
    Option Bytes :=
  if variant.is cstringConverter then variant.as cstringConverter else defaultValue

/-- The overload `operator|(const TVariant&, const char*)` of `VariantOperators.hpp`
(lines 39-45) for `TVariant = VariantConstRef`. -/
def VariantOperators.orCString (variant : VariantConstRef) (defaultValue : Option Bytes) :
    Option Bytes :=
  if variant.is cstringConverter then variant.as cstringConverter else defaultValue

/-- The trait `IsVisitable<T>` of the operand of an operator: it holds for a view or
proxy, for which the overloads with the view on the left are disabled (lines 209-218
and the like). -/
def Operand.isVisitable : Operand → Bool
  | .variant _ => true
  | _ => false

/-- Kind of an operand, by its static type and, for a view or proxy, the kind of the
node behind it.  A null string pointer counts as null: the string strategy compares it
Equal to a null node (lines 40-45). -/
def Operand.kind : Operand → Kind
  | .nullptr => .Null
  | .string none => .Null
  | .string (some _) => .String
  | .float _ => .Float
  | .signed _ => .SignedInteger
  | .unsigned _ => .UnsignedInteger
  | .bool _ => .Boolean
  | .variant v => v.kind

/-! ## Theorems -/

/-- C1 (compare(A, B) and compare(B, A) are exact mirrors for all variants), evaluated
at the objects A = {"a":1} and B = {"b":null}: compare(A, B) is EQUAL but compare(B, A)
is DIFFER.  `ObjectComparer::visitObject` resolves the missing member to an unbound
view, which compares equal to the null value. -/
theorem compare_not_mirrored_on_missing_member :
    compare (some (.object [([97], .signedInteger 1)]))
        (.variant (some (.object [([98], .null)]))) = some .EQUAL ∧
    compare (some (.object [([98], .null)]))
        (.variant (some (.object [([97], .signedInteger 1)]))) = some .DIFFER := by
  decide

/-- C2 (compare(a, b) and compare(b, a) are exact mirrors for all scalars, strings of
any byte content included), evaluated at the strings a = "a\0b" and b = "a\0c":
compare(a, b) and compare(b, a) are both LESS.  `VariantComparer::visitString` drops the
size of the visited string, so the strategy sees it end at the zero byte. -/
theorem compare_not_mirrored_on_zero_byte :
    compare (some (.string [97, 0, 98])) (.variant (some (.string [97, 0, 99])))
      = some .LESS ∧
    compare (some (.string [97, 0, 99])) (.variant (some (.string [97, 0, 98])))
      = some .LESS := by
  decide

/-- C3 (arrays of different lengths never compare Equal: `==` is false and `!=` is
true), evaluated at L = [1,2] and R = [1,2,null]: at the third position the absent slot
of L is an unbound view, which compares equal to the null element of R, and the loop
advances from the null slot: `compare`, `L == R` and `L != R` have no result.  On the
example of the spec, `[1,2] == [1,2,3]` is false. -/
theorem array_compare_faults_past_end :
    compare (some (.array [.signedInteger 1, .signedInteger 2]))
        (.variant (some (.array [.signedInteger 1, .signedInteger 2, .null]))) = none ∧
    opEq (some (.array [.signedInteger 1, .signedInteger 2]))
        (.variant (some (.array [.signedInteger 1, .signedInteger 2, .null]))) = none ∧
    opNe (some (.array [.signedInteger 1, .signedInteger 2]))
        (.variant (some (.array [.signedInteger 1, .signedInteger 2, .null]))) = none ∧
    opEq (some (.array [.signedInteger 1, .signedInteger 2]))
        (.variant (some (.array [.signedInteger 1, .signedInteger 2, .signedInteger 3])))
      = some false := by
  decide

/-- C4 (for arrays of the same length `ArrayComparer` returns Equal when all elements
compare Equal and Incomparable otherwise), evaluated at L = [[1]] and R = [[1,null]],
both of length 1: the comparison of the two elements advances from a null slot, so
`ArrayComparer::visitArray` returns neither Equal nor Incomparable.  On the example of
the spec, `[1,2] == [1,2]` is true. -/
theorem array_compare_same_length_faults :
    ArrayComparer.visitArray [.array [.signedInteger 1]]
        [.array [.signedInteger 1, .null]] = none ∧
    ArrayComparer.visitArray [.array [.signedInteger 1, .null]]
        [.array [.signedInteger 1]] = none ∧
    compare (some (.array [.array [.signedInteger 1]]))
        (.variant (some (.array [.array [.signedInteger 1, .null]]))) = none ∧
    opEq (some (.array [.signedInteger 1, .signedInteger 2]))
        (.variant (some (.array [.signedInteger 1, .signedInteger 2]))) = some true := by
  decide

/-- C5 (objects compare Equal iff they have the same number of members and every key of
L is present in R with an equal value), evaluated at L = {"a":null} and R = {"b":null}:
the comparison is EQUAL in both directions although no key of one object is present in
the other.  On the example of the spec, `{a:1} == {a:1,b:2}` is false. -/
theorem object_compare_equal_without_key :
    compare (some (.object [([97], .null)])) (.variant (some (.object [([98], .null)])))
      = some .EQUAL ∧
    compare (some (.object [([98], .null)])) (.variant (some (.object [([97], .null)])))
      = some .EQUAL ∧
    opEq (some (.object [([97], .null)])) (.variant (some (.object [([98], .null)])))
      = some true ∧
    (getMember [([98], VariantData.null)] [97]).isNone = true ∧
    (getMember [([97], VariantData.null)] [98]).isNone = true ∧
    opEq (some (.object [([97], .signedInteger 1)]))
        (.variant (some (.object [([97], .signedInteger 1), ([98], .signedInteger 2)])))
      = some false := by
  decide

/-- C6 (object comparison does not depend on the order of the members), evaluated at
L = {"a":[],"b":1}, R = {"a":[null],"b":2} and the reordering R' = {"b":2,"a":[null]}:
compare(L, R) reaches the arrays first and advances from a null slot, compare(L, R')
reaches the integers first and is DIFFER.  On the example of the spec,
`{a:1,b:2} == {b:2,a:1}` is true. -/
theorem object_compare_order_dependent_fault :
    compare (some (.object [([97], .array []), ([98], .signedInteger 1)]))
        (.variant (some (.object [([97], .array [.null]), ([98], .signedInteger 2)])))
      = none ∧
    compare (some (.object [([97], .array []), ([98], .signedInteger 1)]))
        (.variant (some (.object [([98], .signedInteger 2), ([97], .array [.null])])))
      = some .DIFFER ∧
    opEq (some (.object [([97], .signedInteger 1), ([98], .signedInteger 2)]))
        (.variant (some (.object [([98], .signedInteger 2), ([97], .signedInteger 1)])))
      = some true := by
  decide

/-- C10 (when compare(v, x) is Incomparable every relational operator but `!=` is false),
evaluated at the views v = {"b":null} and x = {"a":1}: compare(v, x) is DIFFER, yet
`v == x`, `v <= x` and `v >= x` are true and `v != x` is false, because between two
views the operators evaluate compare(x, v), which is EQUAL here. -/
theorem operators_disagree_with_compare :
    compare (some (.object [([98], .null)]))
        (.variant (some (.object [([97], .signedInteger 1)]))) = some .DIFFER ∧
    opEq (some (.object [([98], .null)]))
        (.variant (some (.object [([97], .signedInteger 1)]))) = some true ∧
    opLe (some (.object [([98], .null)]))
        (.variant (some (.object [([97], .signedInteger 1)]))) = some true ∧
    opGe (some (.object [([98], .null)]))
        (.variant (some (.object [([97], .signedInteger 1)]))) = some true ∧
    opNe (some (.object [([98], .null)]))
        (.variant (some (.object [([97], .signedInteger 1)]))) = some false := by
  decide

/-- C7, counterexample: the kinds Boolean and SignedInteger differ and `true` compared
with the integer 1 is EQUAL; the kinds SignedInteger and UnsignedInteger differ and the
signed 1 compared with the unsigned 2 is LESS, not Incomparable. -/
theorem cross_kind_numeric_is_ordered :
    (VariantData.boolean true).kind ≠ (VariantData.signedInteger 1).kind ∧
    compare (some (.boolean true)) (.variant (some (.signedInteger 1))) = some .EQUAL ∧
    (VariantData.signedInteger 1).kind ≠ (VariantData.unsignedInteger 2).kind ∧
    compare (some (.signedInteger 1)) (.variant (some (.unsignedInteger 2)))
      = some .LESS := by
  decide

/-- C7, amended: for every view `a` and every operand `x` (the null pointer constant, a
string, a floating-point, signed, unsigned or boolean value, or a view) whose kinds
differ and are not both numeric (Boolean, SignedInteger, UnsignedInteger, Float),
compare(a, x) returns Incomparable (`DIFFER`), hence neither Equal nor Less nor Greater;
the pair of a String node and a null string pointer is left out.  Null compared with
null is Equal: a null node or an unbound view against the null pointer constant, a null
string pointer, a null node or an unbound view. -/
theorem compare_cross_kind_differ (a : VariantConstRef) (x : Operand) :
    (a.kind ≠ x.kind → ¬ (a.kind.isNumeric = true ∧ x.kind.isNumeric = true) →
      ¬ (a.kind = .String ∧ x = .string none) → compare a x = some .DIFFER) ∧
    (a.kind = .Null → x.kind = .Null → compare a x = some .EQUAL) := by
  constructor
  · intro hk hn hs
    rcases a with _ | a
    · rcases x with _ | (_ | s) | f | i | u | b | (_ | w)
      · exact absurd rfl hk
      · exact absurd rfl hk
      · rfl
      · rfl
      · rfl
      · rfl
      · rfl
      · exact absurd rfl hk
      · cases w <;> first | rfl | exact absurd rfl hk
    · rcases x with _ | (_ | s) | f | i | u | b | (_ | w)
      · cases a <;> first | rfl | exact absurd rfl hk
      · cases a <;> first | rfl | exact absurd rfl hk | exact absurd ⟨rfl, rfl⟩ hs
      · cases a <;> first | rfl | exact absurd rfl hk
      · cases a <;> first | rfl | exact absurd rfl hk | exact absurd ⟨rfl, rfl⟩ hn
      · cases a <;> first | rfl | exact absurd rfl hk | exact absurd ⟨rfl, rfl⟩ hn
      · cases a <;> first | rfl | exact absurd rfl hk | exact absurd ⟨rfl, rfl⟩ hn
      · cases a <;> first | rfl | exact absurd rfl hk | exact absurd ⟨rfl, rfl⟩ hn
      · cases a <;> first | rfl | exact absurd rfl hk
      · cases a <;> cases w <;>
          first
            | rfl
            | exact absurd rfl hk
            | exact absurd ⟨rfl, rfl⟩ hn
  · intro ha hb
    rcases a with _ | a
    · rcases x with _ | (_ | s) | f | i | u | b | (_ | w)
      · rfl
      · rfl
      · exact Kind.noConfusion hb
      · exact Kind.noConfusion hb
      · exact Kind.noConfusion hb
      · exact Kind.noConfusion hb
      · exact Kind.noConfusion hb
      · rfl
      · cases w <;> first | rfl | exact Kind.noConfusion hb
    · cases a <;> first | exact Kind.noConfusion ha | skip
      rcases x with _ | (_ | s) | f | i | u | b | (_ | w)
      · rfl
      · rfl
      · exact Kind.noConfusion hb
      · exact Kind.noConfusion hb
      · exact Kind.noConfusion hb
      · exact Kind.noConfusion hb
      · exact Kind.noConfusion hb
      · rfl
      · cases w <;> first | rfl | exact Kind.noConfusion hb

/-- Witness of `compare_cross_kind_differ`: the string "a" against the integer 1, as a
view and as a value, is DIFFER, the integer 1 against the string "a" as a value is
DIFFER, and an unbound view against a null node and a null node against a null string
pointer are EQUAL. -/
theorem compare_cross_kind_differ_witness :
    compare (some (.string [97])) (.variant (some (.signedInteger 1))) = some .DIFFER ∧
    compare (some (.string [97])) (.signed 1) = some .DIFFER ∧
    compare (some (.signedInteger 1)) (.string (some [97])) = some .DIFFER ∧
    compare none (.variant (some .null)) = some .EQUAL ∧
    compare (some .null) (.string none) = some .EQUAL :=
  ⟨(compare_cross_kind_differ (some (.string [97])) (.variant (some (.signedInteger 1)))).1
      (by decide) (by decide) (fun h => Operand.noConfusion h.2),
   (compare_cross_kind_differ (some (.string [97])) (.signed 1)).1
      (by decide) (by decide) (fun h => Operand.noConfusion h.2),
   (compare_cross_kind_differ (some (.signedInteger 1)) (.string (some [97]))).1
      (by decide) (by decide) (fun h => Kind.noConfusion h.1),
   (compare_cross_kind_differ none (.variant (some .null))).2 rfl rfl,
   (compare_cross_kind_differ (some .null) (.string none)).2 rfl rfl⟩

/-- C9: for every view `v`, every proxy `p` and every default `d` of a scalar type `T`
(with its converter `is<T>()` / `as<T>()`), `v | d` equals `v.as<T>()` when `v.is<T>()`
holds and equals `d` otherwise, in each overload of `OrOperator.hpp` (for a `T` that
needs a writeable view or not) and of `VariantOperators.hpp`, and `p | d` does the same
through the non-allocating `getUpstreamElementConst()`; so do the overloads for a
`const char*` default `c`, null or not, on a view and on a proxy.  For an
`int` that can hold 42: `unboundView | 42` is 42, a view holding a string `| 42` is 42,
and a view holding 42 (signed or unsigned) `| 99` is 42. -/
theorem or_scalar_is_then_as {T : Type} (cv : Converter T) (v : VariantConstRef)
    (p : ElementProxy) (d : T) (lo hi : Int) (ofFloat : Float → Int)
    (ofString : Bytes → Int) (s : Bytes) (c : Option Bytes) (hlo : lo ≤ 42)
    (hhi : 42 ≤ hi) :
    OrOperator.orScalar cv v d = (if v.is cv then v.as cv else d) ∧
    VariantOperators.orScalar cv v d = (if v.is cv then v.as cv else d) ∧
    ElementProxy.orScalar cv p d
      = (if p.getUpstreamElementConst.is cv then p.getUpstreamElementConst.as cv else d) ∧
    (v.is cv = true → OrOperator.orScalar cv v d = v.as cv) ∧
    (v.is cv = false → OrOperator.orScalar cv v d = d) ∧
    (p.is cv = true → ElementProxy.orScalar cv p d = p.as cv) ∧
    (p.is cv = false → ElementProxy.orScalar cv p d = d) ∧
    OrOperator.orCString v c
      = (if v.is cstringConverter then v.as cstringConverter else c) ∧
    ElementProxy.orCString p c
      = (if p.getUpstreamElementConst.is cstringConverter
          then p.getUpstreamElementConst.as cstringConverter else c) ∧
    VariantOperators.orCString v c
      = (if v.is cstringConverter then v.as cstringConverter else c) ∧
    OrOperator.orScalarWriteable cv v d = (if v.is cv then v.as cv else d) ∧
    (v.is cv = true → VariantOperators.orScalar cv v d = v.as cv) ∧
    (v.is cv = false → VariantOperators.orScalar cv v d = d) ∧
    (v.is cstringConverter = true →
      OrOperator.orCString v c = v.as cstringConverter ∧
      VariantOperators.orCString v c = v.as cstringConverter) ∧
    (v.is cstringConverter = false →
      OrOperator.orCString v c = c ∧ VariantOperators.orCString v c = c) ∧
    (p.is cstringConverter = true → ElementProxy.orCString p c = p.as cstringConverter) ∧
    (p.is cstringConverter = false → ElementProxy.orCString p c = c) ∧
    OrOperator.orScalar (integralConverter lo hi ofFloat ofString) none 42 = 42 ∧
    OrOperator.orScalar (integralConverter lo hi ofFloat ofString) (some (.string s)) 42
      = 42 ∧
    OrOperator.orScalar (integralConverter lo hi ofFloat ofString)
      (some (.signedInteger 42)) 99 = 42 ∧
    OrOperator.orScalar (integralConverter lo hi ofFloat ofString)
      (some (.unsignedInteger 42)) 99 = 42 := by
  refine ⟨rfl, rfl, rfl, ?_, ?_, ?_, ?_, rfl, rfl, rfl, rfl, ?_, ?_, ?_, ?_, ?_, ?_, rfl,
    rfl, ?_, ?_⟩
  · intro h
    simp [OrOperator.orScalar, h]
  · intro h
    simp [OrOperator.orScalar, h]
  · intro h
    simp [ElementProxy.orScalar, h]
  · intro h
    simp [ElementProxy.orScalar, h]
  · intro h
    simp [VariantOperators.orScalar, h]
  · intro h
    simp [VariantOperators.orScalar, h]
  · intro h
    simp [OrOperator.orCString, VariantOperators.orCString, h]
  · intro h
    simp [OrOperator.orCString, VariantOperators.orCString, h]
  · intro h
    simp [ElementProxy.orCString, h]
  · intro h
    simp [ElementProxy.orCString, h]
  · simp [OrOperator.orScalar, VariantConstRef.is, VariantConstRef.as, integralConverter,
      hlo, hhi]
  · simp [OrOperator.orScalar, VariantConstRef.is, VariantConstRef.as, integralConverter,
      hhi]

/-- Witness of `or_scalar_is_then_as` for a 16-bit `int`: the view holding 42 and the
proxy for index 0 of [42] give 42, the view holding the string "a" and the proxy for the
absent index 3 give the default 99; with the C string "b" as default, the view holding
the string "a" gives "a" and the view holding 42 gives "b". -/
theorem or_scalar_is_then_as_witness :
    OrOperator.orScalar (integralConverter (-32768) 32767 (fun _ => 0) (fun _ => 0))
      (some (.signedInteger 42)) 99 = 42 ∧
    OrOperator.orScalar (integralConverter (-32768) 32767 (fun _ => 0) (fun _ => 0))
      (some (.string [97])) 99 = 99 ∧
    ElementProxy.orScalar (integralConverter (-32768) 32767 (fun _ => 0) (fun _ => 0))
      (ElementProxy.mk (some [.signedInteger 42]) 0) 99 = 42 ∧
    ElementProxy.orScalar (integralConverter (-32768) 32767 (fun _ => 0) (fun _ => 0))
      (ElementProxy.mk (some [.signedInteger 42]) 3) 99 = 99 ∧
    (OrOperator.orCString (some (.string [97])) (some [98]) = some [97] ∧
      VariantOperators.orCString (some (.string [97])) (some [98]) = some [97]) ∧
    (OrOperator.orCString (some (.signedInteger 42)) (some [98]) = some [98] ∧
      VariantOperators.orCString (some (.signedInteger 42)) (some [98]) = some [98]) :=
  ⟨(or_scalar_is_then_as (integralConverter (-32768) 32767 (fun _ => 0) (fun _ => 0))
      (some (.signedInteger 42)) (ElementProxy.mk (some [.signedInteger 42]) 3) 99
      (-32768) 32767 (fun _ => 0) (fun _ => 0) [] none (by decide) (by decide)).2.2.2.1 rfl,
   (or_scalar_is_then_as (integralConverter (-32768) 32767 (fun _ => 0) (fun _ => 0))
      (some (.string [97])) (ElementProxy.mk (some [.signedInteger 42]) 3) 99
      (-32768) 32767 (fun _ => 0) (fun _ => 0) [] none (by decide) (by decide)).2.2.2.2.1 rfl,
   (or_scalar_is_then_as (integralConverter (-32768) 32767 (fun _ => 0) (fun _ => 0))
      (some (.signedInteger 42)) (ElementProxy.mk (some [.signedInteger 42]) 0) 99
      (-32768) 32767 (fun _ => 0) (fun _ => 0) [] none (by decide) (by decide)).2.2.2.2.2.1 rfl,
   (or_scalar_is_then_as (integralConverter (-32768) 32767 (fun _ => 0) (fun _ => 0))
      (some (.signedInteger 42)) (ElementProxy.mk (some [.signedInteger 42]) 3) 99
      (-32768) 32767 (fun _ => 0) (fun _ => 0) [] none (by decide) (by decide)).2.2.2.2.2.2.1 rfl,
   (or_scalar_is_then_as (integralConverter (-32768) 32767 (fun _ => 0) (fun _ => 0))
      (some (.string [97])) (ElementProxy.mk (some [.signedInteger 42]) 3) 99
      (-32768) 32767 (fun _ => 0) (fun _ => 0) [] (some [98]) (by decide)
      (by decide)).2.2.2.2.2.2.2.2.2.2.2.2.2.1 rfl,
   (or_scalar_is_then_as (integralConverter (-32768) 32767 (fun _ => 0) (fun _ => 0))
      (some (.signedInteger 42)) (ElementProxy.mk (some [.signedInteger 42]) 3) 99
      (-32768) 32767 (fun _ => 0) (fun _ => 0) [] (some [98]) (by decide)
      (by decide)).2.2.2.2.2.2.2.2.2.2.2.2.2.2.1 rfl⟩

/-! ### Supporting facts on `ArrayComparer::visitArray` -/

/-- The test `val1 != val2` of the two loops, between a bound view `val1` and a view
`val2`, is the expression that the model of the loops evaluates. -/
theorem opNe_variant_eq (val1 : VariantData) (val2 : VariantConstRef) :
    opNe (some val1) (.variant val2)
      = (VariantData.accept val1 (VariantComparer.comparer val2)).map
          (fun reversedResult => VariantComparer.reverse reversedResult != .EQUAL) := by
  cases h : VariantData.accept val1 (VariantComparer.comparer val2) <;>
    simp [opNe, neValueVariant, compare, VariantComparer.accept, VariantConstRef.accept, h]

/-- With an absent slot on the left, the test `val1 != val2` is the `visitNull` of the
strategy built from `val2`, reversed. -/
theorem opNe_unbound_eq (val2 : VariantConstRef) :
    opNe none (.variant val2)
      = some (VariantComparer.reverse (VariantComparer.comparer val2).visitNull != .EQUAL) := by
  simp [opNe, neValueVariant, compare, VariantComparer.accept, VariantConstRef.accept]

/-- One step of the loop of `ArrayComparer::visitArray` with both slots present. -/
theorem visitArray_cons_cons (val1 val2 : VariantData) (next1 next2 : List VariantData) :
    ArrayComparer.visitArray (val1 :: next1) (val2 :: next2) =
      match opNe (some val1) (.variant (some val2)) with
      | none => none
      | some true => some .DIFFER
      | some false => ArrayComparer.visitArray next1 next2 := by
  rw [ArrayComparer.visitArray, opNe_variant_eq]
  cases h : VariantData.accept val1 (VariantComparer.comparer (some val2)) with
  | none => rfl
  | some reversedResult =>
    cases hr : (VariantComparer.reverse reversedResult != CompareResult.EQUAL) <;> simp [hr]

/-- The step of the loop of `ArrayComparer::visitArray` when `slot1` is null and `slot2`
is not: `val1` is unbound; unless `val1 != val2` holds, `slot1->next()` is evaluated on
the null slot. -/
theorem visitArray_nil_cons (val2 : VariantData) (next2 : List VariantData) :
    ArrayComparer.visitArray [] (val2 :: next2) =
      match opNe none (.variant (some val2)) with
      | some true => some .DIFFER
      | _ => none := by
  rw [ArrayComparer.visitArray, opNe_unbound_eq]
  cases hr : (VariantComparer.reverse (VariantComparer.comparer (some val2)).visitNull
    != CompareResult.EQUAL) <;> simp

/-- The step of the loop of `ArrayComparer::visitArray` when `slot2` is null and `slot1`
is not: `val2` is unbound; unless `val1 != val2` holds, `slot2->next()` is evaluated on
the null slot. -/
theorem visitArray_cons_nil (val1 : VariantData) (next1 : List VariantData) :
    ArrayComparer.visitArray (val1 :: next1) [] =
      match opNe (some val1) (.variant none) with
      | some true => some .DIFFER
      | _ => none := by
  rw [ArrayComparer.visitArray, opNe_variant_eq]
  cases h : VariantData.accept val1 (VariantComparer.comparer none) with
  | none => rfl
  | some reversedResult =>
    cases hr : (VariantComparer.reverse reversedResult != CompareResult.EQUAL) <;> simp [hr]

/-- The loop of `ArrayComparer::visitArray` never returns LESS or GREATER. -/
theorem visitArray_differ_or_equal (lhs rhs : List VariantData) :
    ArrayComparer.visitArray lhs rhs = none ∨
    ArrayComparer.visitArray lhs rhs = some .DIFFER ∨
    ArrayComparer.visitArray lhs rhs = some .EQUAL := by
  induction lhs generalizing rhs with
  | nil =>
    cases rhs with
    | nil => right; right; simp [ArrayComparer.visitArray]
    | cons val2 next2 =>
      rw [ArrayComparer.visitArray]
      split <;> simp
  | cons val1 next1 ih =>
    cases rhs with
    | nil =>
      rw [ArrayComparer.visitArray]
      split
      · simp
      · split <;> simp
    | cons val2 next2 =>
      rw [visitArray_cons_cons]
      split
      · simp
      · simp
      · exact ih next2

/-- The loop of `ArrayComparer::visitArray` returns EQUAL exactly when the two lists
have the same length and `val1 != val2` is false at every position. -/
theorem visitArray_eq_EQUAL_iff (lhs rhs : List VariantData) :
    ArrayComparer.visitArray lhs rhs = some .EQUAL ↔
      List.Forall₂ (fun val1 val2 => opNe (some val1) (.variant (some val2)) = some false)
        lhs rhs := by
  induction lhs generalizing rhs with
  | nil =>
    cases rhs with
    | nil => simp [ArrayComparer.visitArray]
    | cons val2 next2 =>
      rw [ArrayComparer.visitArray]
      constructor
      · intro h
        split at h <;> simp at h
      · intro h
        cases h
  | cons val1 next1 ih =>
    cases rhs with
    | nil =>
      rw [ArrayComparer.visitArray]
      constructor
      · intro h
        split at h
        · simp at h
        · split at h <;> simp at h
      · intro h
        cases h
    | cons val2 next2 =>
      rw [visitArray_cons_cons, List.forall₂_cons, ← ih next2]
      cases h : opNe (some val1) (.variant (some val2)) with
      | none => simp
      | some b => cases b <;> simp

/-- Arrays of different lengths never compare EQUAL: the loop returns DIFFER or has no
result. -/
theorem visitArray_length_ne (lhs rhs : List VariantData) (h : lhs.length ≠ rhs.length) :
    ArrayComparer.visitArray lhs rhs ≠ some .EQUAL := by
  intro he
  exact h ((visitArray_eq_EQUAL_iff lhs rhs).1 he).length_eq

/-! ### Supporting facts on the operators derived from `compare` -/

/-- When compare(v, x) is DIFFER, the six operators with the value `x` on the left,
which evaluate compare(v, x), are all false except `x != v`; this holds for every
operand, views included. -/
theorem value_left_operators_of_differ (v : VariantConstRef) (x : Operand)
    (h : compare v x = some .DIFFER) :
    leValueVariant x v = some false ∧ geValueVariant x v = some false ∧
    ltValueVariant x v = some false ∧ gtValueVariant x v = some false ∧
    eqValueVariant x v = some false ∧ neValueVariant x v = some true := by
  simp [leValueVariant, geValueVariant, ltValueVariant, gtValueVariant, eqValueVariant,
    neValueVariant, h]
  decide

/-- When compare(v, x) is DIFFER and `x` is not a view, the six operators with the view
`v` on the left are all false except `v != x`. -/
theorem view_left_operators_of_differ (v : VariantConstRef) (x : Operand)
    (hx : ∀ w, x ≠ .variant w) (h : compare v x = some .DIFFER) :
    opLe v x = some false ∧ opGe v x = some false ∧ opLt v x = some false ∧
    opGt v x = some false ∧ opEq v x = some false ∧ opNe v x = some true := by
  cases x with
  | variant w => exact absurd rfl (hx w)
  | _ =>
    simp [opLe, opGe, opLt, opGt, opEq, opNe, leVariantValue, geVariantValue,
      ltVariantValue, gtVariantValue, eqVariantValue, neVariantValue, h]
    decide

/-! ### Supporting facts on the mirror of scalar comparisons -/

/-- Exchanging the operands of `arithmeticCompare` on the integers exchanges LESS and
GREATER. -/
theorem arithmeticCompare_int_swap (x y : Int) :
    arithmeticCompare y x = VariantComparer.reverse (arithmeticCompare x y) := by
  unfold arithmeticCompare
  rcases lt_trichotomy x y with h | h | h
  · have h1 : ¬ y < x := by omega
    have h2 : y > x := by omega
    simp [h, h1, h2, VariantComparer.reverse]
  · subst h
    simp [VariantComparer.reverse]
  · have h1 : ¬ x < y := by omega
    have h2 : x > y := by omega
    simp [h, h1, h2, VariantComparer.reverse]

/-- Exchanging the operands of `arithmeticCompare` on the naturals exchanges LESS and
GREATER. -/
theorem arithmeticCompare_nat_swap (x y : Nat) :
    arithmeticCompare y x = VariantComparer.reverse (arithmeticCompare x y) := by
  unfold arithmeticCompare
  rcases lt_trichotomy x y with h | h | h
  · have h1 : ¬ y < x := by omega
    have h2 : y > x := by omega
    simp [h, h1, h2, VariantComparer.reverse]
  · subst h
    simp [VariantComparer.reverse]
  · have h1 : ¬ x < y := by omega
    have h2 : x > y := by omega
    simp [h, h1, h2, VariantComparer.reverse]

/-- The two mixed-sign comparisons mirror each other. -/
theorem arithmeticCompareUS_swap (u : Nat) (i : Int) :
    arithmeticCompareUS u i = VariantComparer.reverse (arithmeticCompareSU i u) := by
  unfold arithmeticCompareUS arithmeticCompareSU
  by_cases h : i < 0
  · simp [h, VariantComparer.reverse]
  · simp [h]
    exact arithmeticCompare_nat_swap _ _

/-- Reversing twice gives the result back. -/
theorem reverse_reverse (r : CompareResult) :
    VariantComparer.reverse (VariantComparer.reverse r) = r := by
  cases r <;> rfl

/-- Exchanging the operands of `stringCompare` exchanges the sign of the result. -/
theorem stringCompare_swap (s t : Bytes) :
    (stringCompare s t < 0 ↔ 0 < stringCompare t s) ∧
    (0 < stringCompare s t ↔ stringCompare t s < 0) := by
  induction s generalizing t with
  | nil => cases t <;> simp [stringCompare]
  | cons a s1 ih =>
    cases t with
    | nil => simp [stringCompare]
    | cons b t1 =>
      by_cases hab : a = b
      · subst hab
        simpa [stringCompare] using ih t1
      · have hba : ¬ b = a := fun h => hab h.symm
        simp only [stringCompare, bne_iff_ne, ne_eq, hab, hba, not_false_eq_true, if_true]
        constructor <;> constructor <;> intro h <;> omega

/-- A string without a zero byte is seen in full through a bare `const char*`. -/
theorem cstr_eq_self (s : Bytes) (h : 0 ∉ s) : cstr s = s := by
  unfold cstr
  rw [List.takeWhile_eq_self_iff]
  intro x hx
  simp only [bne_iff_ne, ne_eq]
  intro h0
  exact h (h0 ▸ hx)

/-- The string strategy mirrors when the operands are exchanged. -/
theorem visitString_swap (s t : Bytes) :
    (Comparer.string (some t)).visitString s
      = VariantComparer.reverse ((Comparer.string (some s)).visitString t) := by
  have h := stringCompare_swap s t
  simp only [Comparer.visitString, adaptString]
  rcases lt_trichotomy (stringCompare s t) 0 with h1 | h1 | h1
  · have h2 : 0 < stringCompare t s := h.1.1 h1
    have h3 : ¬ stringCompare t s < 0 := by omega
    simp [h1, h2, h3, VariantComparer.reverse]
  · have h2 : ¬ stringCompare t s < 0 := fun hh => by
      have := h.2.2 hh
      omega
    have h3 : ¬ 0 < stringCompare t s := fun hh => by
      have := h.1.2 hh
      omega
    simp [h1, h2, h3, VariantComparer.reverse]
  · have h2 : stringCompare t s < 0 := h.2.1 h1
    have h3 : ¬ stringCompare s t < 0 := by omega
    simp [h1, h2, h3, VariantComparer.reverse]

/-- For scalars (null, boolean, signed or unsigned integer, string) whose strings hold no
zero byte, compare(b, a) is the mirror of compare(a, b). -/
theorem compare_scalar_mirror (a b : VariantData) (ha : a.isScalar = true)
    (hb : b.isScalar = true) (hza : ∀ s, a = .string s → 0 ∉ s)
    (hzb : ∀ s, b = .string s → 0 ∉ s) :
    compare (some b) (.variant (some a))
      = (compare (some a) (.variant (some b))).map VariantComparer.reverse := by
  cases a <;> cases b <;>
    first
      | exact absurd ha Bool.false_ne_true
      | exact absurd hb Bool.false_ne_true
      | rfl
      | (simp only [compare, VariantComparer.accept, VariantConstRef.accept,
           VariantData.accept, VariantComparer.comparer, Comparer.visitBoolean,
           Comparer.visitSignedInteger, Comparer.visitUnsignedInteger,
           Option.map_some', reverse_reverse, arithmeticCompare, arithmeticCompareUS,
           arithmeticCompareSU]
         split_ifs <;> first | rfl | (exfalso; omega))
      | (rename_i s t
         simp only [compare, VariantComparer.accept, VariantConstRef.accept,
           VariantData.accept, VariantComparer.comparer, Option.map_some',
           reverse_reverse, cstr_eq_self s (hza s rfl), cstr_eq_self t (hzb t rfl)]
         rw [visitString_swap s t, reverse_reverse])

/-! ### Supporting facts on `ObjectComparer::visitObject` -/

/-- One step of the loop of `ObjectComparer::visitObject`. -/
theorem visitObject_cons (rhs next : List (Bytes × VariantData)) (key : Bytes)
    (val1 : VariantData) (count : Nat) :
    ObjectComparer.visitObject rhs ((key, val1) :: next) count =
      match opNe (some val1) (.variant (getMember rhs key)) with
      | none => none
      | some true => some .DIFFER
      | some false => ObjectComparer.visitObject rhs next (count + 1) := by
  rw [ObjectComparer.visitObject, opNe_variant_eq]
  cases h : VariantData.accept val1 (VariantComparer.comparer (getMember rhs key)) with
  | none => rfl
  | some reversedResult =>
    cases hr : (VariantComparer.reverse reversedResult != CompareResult.EQUAL) <;> simp [hr]

/-- The loop of `ObjectComparer::visitObject` returns EQUAL exactly when `val1 != val2`
is false for every member of `lhs` against the member of `rhs` found under the same key
(an unbound view when there is none), and the final count equals the size of `rhs`. -/
theorem visitObject_eq_EQUAL_iff (rhs lhs : List (Bytes × VariantData)) (count : Nat) :
    ObjectComparer.visitObject rhs lhs count = some .EQUAL ↔
      (∀ m ∈ lhs, opNe (some m.2) (.variant (getMember rhs m.1)) = some false) ∧
      count + lhs.length = rhs.length := by
  induction lhs generalizing count with
  | nil => simp [ObjectComparer.visitObject]
  | cons m next ih =>
    obtain ⟨key, val1⟩ := m
    rw [visitObject_cons]
    cases h : opNe (some val1) (.variant (getMember rhs key)) with
    | none => simp [h]
    | some b =>
      cases b
      · simp only [List.mem_cons, forall_eq_or_imp, h, true_and, List.length_cons]
        rw [ih (count + 1)]
        constructor
        · rintro ⟨h1, h2⟩
          exact ⟨h1, by omega⟩
        · rintro ⟨h1, h2⟩
          exact ⟨h1, by omega⟩
      · simp [h]

/-- When every member comparison returns, the loop of `ObjectComparer::visitObject`
returns EQUAL or DIFFER. -/
theorem visitObject_of_defined (rhs lhs : List (Bytes × VariantData)) (count : Nat)
    (hdef : ∀ m ∈ lhs, opNe (some m.2) (.variant (getMember rhs m.1)) ≠ none) :
    ObjectComparer.visitObject rhs lhs count = some .EQUAL ∨
    ObjectComparer.visitObject rhs lhs count = some .DIFFER := by
  induction lhs generalizing count with
  | nil =>
    simp only [ObjectComparer.visitObject]
    split <;> simp
  | cons m next ih =>
    obtain ⟨key, val1⟩ := m
    rw [visitObject_cons]
    have hm := hdef (key, val1) (List.mem_cons_self _ _)
    cases h : opNe (some val1) (.variant (getMember rhs key)) with
    | none => exact absurd h hm
    | some b =>
      cases b
      · exact ih (count + 1) (fun m hmem => hdef m (List.mem_cons_of_mem _ hmem))
      · simp

/-- A key that is not among the keys of an object is not found. -/
theorem getMember_of_not_mem (l : List (Bytes × VariantData)) (key : Bytes)
    (h : key ∉ l.map Prod.fst) : getMember l key = none := by
  induction l with
  | nil => rfl
  | cons m next ih =>
    obtain ⟨k, v⟩ := m
    simp only [List.map_cons, List.mem_cons, not_or] at h
    have hk : ¬ k = key := fun e => h.1 e.symm
    simp [getMember, hk, ih h.2]

/-- With pairwise distinct keys, `getMember` does not depend on the order of the
members. -/
theorem getMember_perm (l l2 : List (Bytes × VariantData)) (h : l.Perm l2)
    (hk : (l.map Prod.fst).Nodup) (key : Bytes) : getMember l2 key = getMember l key := by
  induction h with
  | nil => rfl
  | cons m _ ih =>
    obtain ⟨k, v⟩ := m
    simp only [List.map_cons, List.nodup_cons] at hk
    simp [getMember, ih hk.2]
  | swap m1 m2 l =>
    obtain ⟨k1, v1⟩ := m1
    obtain ⟨k2, v2⟩ := m2
    simp only [List.map_cons, List.nodup_cons, List.mem_cons, not_or] at hk
    have hne : ¬ k2 = k1 := hk.1.1
    by_cases h1 : k1 = key
    · have h2 : ¬ k2 = key := fun e => hne (e.trans h1.symm)
      simp [getMember, h1, h2]
    · simp [getMember, h1]
  | trans h1 _ ih1 ih2 =>
    have hk2 := (h1.map Prod.fst).nodup_iff.1 hk
    rw [ih2 hk2, ih1 hk]

/-- Order-independence of the object loop where it returns: for objects `rhs` with
pairwise distinct keys, reordering the members of either object does not change the
result, provided every member comparison returns. -/
theorem visitObject_perm (rhs rhs2 lhs lhs2 : List (Bytes × VariantData))
    (hr : rhs.Perm rhs2) (hl : lhs.Perm lhs2) (hk : (rhs.map Prod.fst).Nodup)
    (hdef : ∀ m ∈ lhs, opNe (some m.2) (.variant (getMember rhs m.1)) ≠ none) :
    ObjectComparer.visitObject rhs2 lhs2 0 = ObjectComparer.visitObject rhs lhs 0 := by
  have hdef2 : ∀ m ∈ lhs2, opNe (some m.2) (.variant (getMember rhs2 m.1)) ≠ none := by
    intro m hm
    rw [getMember_perm rhs rhs2 hr hk]
    exact hdef m (hl.mem_iff.2 hm)
  have hiff : ObjectComparer.visitObject rhs2 lhs2 0 = some .EQUAL ↔
      ObjectComparer.visitObject rhs lhs 0 = some .EQUAL := by
    rw [visitObject_eq_EQUAL_iff, visitObject_eq_EQUAL_iff, hl.length_eq, hr.length_eq]
    constructor
    · rintro ⟨h1, h2⟩
      refine ⟨fun m hm => ?_, h2⟩
      have := h1 m (hl.mem_iff.1 hm)
      rwa [getMember_perm rhs rhs2 hr hk] at this
    · rintro ⟨h1, h2⟩
      refine ⟨fun m hm => ?_, h2⟩
      rw [getMember_perm rhs rhs2 hr hk]
      exact h1 m (hl.mem_iff.2 hm)
  rcases visitObject_of_defined rhs lhs 0 hdef with h | h
  · rw [h, hiff.2 h]
  · rcases visitObject_of_defined rhs2 lhs2 0 hdef2 with h2 | h2
    · rw [hiff.1 h2] at h
      cases h
    · rw [h, h2]

/-- Order-independence of compare(L, R) on objects where it returns: when the keys of
`L` are pairwise distinct and every member of `R` can be compared with the member of `L`
under its key, reordering the members of `L` and of `R` does not change the result. -/
theorem compare_object_perm (L L2 R R2 : List (Bytes × VariantData))
    (hL : L.Perm L2) (hR : R.Perm R2) (hk : (L.map Prod.fst).Nodup)
    (hdef : ∀ m ∈ R, opNe (some m.2) (.variant (getMember L m.1)) ≠ none) :
    compare (some (.object L2)) (.variant (some (.object R2)))
      = compare (some (.object L)) (.variant (some (.object R))) := by
  simp only [compare, VariantComparer.accept, VariantConstRef.accept,
    VariantComparer.comparer, VariantData.accept]
  rw [visitObject_perm L L2 R R2 hL hR hk hdef]

/-! ### Supporting facts on numeric kinds -/

/-- Values of the kinds Boolean, SignedInteger and UnsignedInteger are compared by
value, whatever their kinds: compare(a, b) is `arithmeticCompare` of the two integers. -/
theorem compare_integral_by_value (a b : VariantData) (x y : Int)
    (ha : a.integralValue = some x) (hb : b.integralValue = some y) :
    compare (some a) (.variant (some b)) = some (arithmeticCompare x y) := by
  cases a <;> cases b <;> simp only [VariantData.integralValue, Option.some.injEq] at ha hb <;>
    first
      | exact absurd ha (by simp)
      | exact absurd hb (by simp)
      | (subst ha
         subst hb
         simp only [compare, VariantComparer.accept, VariantConstRef.accept,
           VariantData.accept, VariantComparer.comparer, Comparer.visitBoolean,
           Comparer.visitSignedInteger, Comparer.visitUnsignedInteger,
           Option.map_some', arithmeticCompare, arithmeticCompareUS,
           arithmeticCompareSU, VariantComparer.reverse]
         split_ifs <;> first | rfl | (exfalso; omega))

/-- C11: for a null node or an unbound view `n`, compare(n, null default) is EQUAL for
the null pointer constant, a null string and another null or unbound variant; and for
every non-null scalar operand `x` (boolean, signed or unsigned integer, floating-point
value, non-null string, given by value or held by a view), compare(n, x) is DIFFER
(Incomparable), so that `n <= x` and `n >= x` are both false. -/
theorem compare_null_node (n : VariantConstRef) (hn : n.kind = .Null) :
    compare n .nullptr = some .EQUAL ∧
    compare n (.string none) = some .EQUAL ∧
    compare n (.variant none) = some .EQUAL ∧
    compare n (.variant (some .null)) = some .EQUAL ∧
    (∀ x : Operand,
      ((∃ b, x = .bool b) ∨ (∃ i, x = .signed i) ∨ (∃ u, x = .unsigned u) ∨
       (∃ f, x = .float f) ∨ (∃ s, x = .string (some s)) ∨
       (∃ b, x = .variant (some (.boolean b))) ∨
       (∃ i, x = .variant (some (.signedInteger i))) ∨
       (∃ u, x = .variant (some (.unsignedInteger u))) ∨
       (∃ f, x = .variant (some (.float f))) ∨
       (∃ s, x = .variant (some (.string s)))) →
      compare n x = some .DIFFER ∧ opLe n x = some false ∧ opGe n x = some false ∧
      leValueVariant x n = some false ∧ geValueVariant x n = some false) := by
  have hcases : n = none ∨ n = some .null := by
    rcases n with _ | d
    · exact Or.inl rfl
    · cases d <;> first | exact Or.inr rfl | exact Kind.noConfusion hn
  refine ⟨?_, ?_, ?_, ?_, ?_⟩
  · rcases hcases with rfl | rfl <;> rfl
  · rcases hcases with rfl | rfl <;> rfl
  · rcases hcases with rfl | rfl <;> rfl
  · rcases hcases with rfl | rfl <;> rfl
  · intro x hx
    have hvalue : ∀ x : Operand, (∀ w, x ≠ .variant w) → compare n x = some .DIFFER →
        compare n x = some .DIFFER ∧ opLe n x = some false ∧ opGe n x = some false ∧
        leValueVariant x n = some false ∧ geValueVariant x n = some false := by
      intro x hx h
      have h1 := view_left_operators_of_differ n x hx h
      have h2 := value_left_operators_of_differ n x h
      exact ⟨h, h1.1, h1.2.1, h2.1, h2.2.1⟩
    have hview : ∀ w : VariantConstRef, compare n (.variant w) = some .DIFFER →
        compare w (.variant n) = some .DIFFER →
        compare n (.variant w) = some .DIFFER ∧ opLe n (.variant w) = some false ∧
        opGe n (.variant w) = some false ∧ leValueVariant (.variant w) n = some false ∧
        geValueVariant (.variant w) n = some false := by
      intro w h h'
      have h1 := value_left_operators_of_differ w (.variant n) h'
      have h2 := value_left_operators_of_differ n (.variant w) h
      exact ⟨h, h1.1, h1.2.1, h2.1, h2.2.1⟩
    rcases hx with ⟨b, rfl⟩ | ⟨i, rfl⟩ | ⟨u, rfl⟩ | ⟨f, rfl⟩ | ⟨s, rfl⟩ | ⟨b, rfl⟩ |
        ⟨i, rfl⟩ | ⟨u, rfl⟩ | ⟨f, rfl⟩ | ⟨s, rfl⟩
    · exact hvalue _ (fun w h => Operand.noConfusion h) (by rcases hcases with rfl | rfl <;> rfl)
    · exact hvalue _ (fun w h => Operand.noConfusion h) (by rcases hcases with rfl | rfl <;> rfl)
    · exact hvalue _ (fun w h => Operand.noConfusion h) (by rcases hcases with rfl | rfl <;> rfl)
    · exact hvalue _ (fun w h => Operand.noConfusion h) (by rcases hcases with rfl | rfl <;> rfl)
    · exact hvalue _ (fun w h => Operand.noConfusion h) (by rcases hcases with rfl | rfl <;> rfl)
    · exact hview _ (by rcases hcases with rfl | rfl <;> rfl)
        (by rcases hcases with rfl | rfl <;> rfl)
    · exact hview _ (by rcases hcases with rfl | rfl <;> rfl)
        (by rcases hcases with rfl | rfl <;> rfl)
    · exact hview _ (by rcases hcases with rfl | rfl <;> rfl)
        (by rcases hcases with rfl | rfl <;> rfl)
    · exact hview _ (by rcases hcases with rfl | rfl <;> rfl)
        (by rcases hcases with rfl | rfl <;> rfl)
    · exact hview _ (by rcases hcases with rfl | rfl <;> rfl)
        (by rcases hcases with rfl | rfl <;> rfl)

/-- Witness of `compare_null_node` at the null node and the operand 5. -/
theorem compare_null_node_witness :
    compare (some .null) .nullptr = some .EQUAL ∧
    compare (some .null) (.signed 5) = some .DIFFER ∧
    opLe (some .null) (.signed 5) = some false ∧
    opGe (some .null) (.signed 5) = some false :=
  ⟨(compare_null_node (some .null) rfl).1,
   ((compare_null_node (some .null) rfl).2.2.2.2 (.signed 5)
      (Or.inr (Or.inl ⟨5, rfl⟩))).1,
   ((compare_null_node (some .null) rfl).2.2.2.2 (.signed 5)
      (Or.inr (Or.inl ⟨5, rfl⟩))).2.1,
   ((compare_null_node (some .null) rfl).2.2.2.2 (.signed 5)
      (Or.inr (Or.inl ⟨5, rfl⟩))).2.2.1⟩

/-- C12 (a null string operand is Incomparable with every String node), evaluated at the
String nodes "a" and "" with a null `const char*` operand: compare is GREATER,
respectively EQUAL.  `Comparer<T>::visitString` does not test `isNull()` (only
`visitNull` does) and maps whatever `stringCompare` returns to LESS, EQUAL or GREATER, so
no String node is ever Incomparable with a string operand, null or not. -/
theorem string_node_vs_null_string :
    compare (some (.string [97])) (.string none) = some .GREATER ∧
    compare (some (.string [])) (.string none) = some .EQUAL ∧
    (∀ (s : Bytes) (rhs : Option Bytes),
      compare (some (.string s)) (.string rhs) ≠ some .DIFFER) := by
  refine ⟨by decide, by decide, ?_⟩
  intro s rhs h
  simp only [compare, VariantConstRef.accept, VariantData.accept, Comparer.visitString,
    Option.some.injEq] at h
  split_ifs at h

/-! ### Supporting facts on the string strategy -/

/-- The result of `stringCompare` is negative exactly when the first string is less than
the second in the byte-wise lexicographic order. -/
theorem stringCompare_neg_iff (s t : Bytes) :
    stringCompare s t < 0 ↔ List.Lex (· < ·) s t := by
  induction s generalizing t with
  | nil =>
    cases t with
    | nil => simp [stringCompare, List.Lex.not_nil_right]
    | cons b t1 => simp [stringCompare, List.Lex.nil]
  | cons a s1 ih =>
    cases t with
    | nil => simp [stringCompare, List.Lex.not_nil_right]
    | cons b t1 =>
      by_cases hab : a = b
      · subst hab
        simp only [stringCompare, bne_self_eq_false, Bool.false_eq_true, if_false, ih t1]
        exact List.Lex.cons_iff.symm
      · simp only [stringCompare, bne_iff_ne, ne_eq, hab, not_false_eq_true, if_true]
        constructor
        · intro h
          exact List.Lex.rel (by omega)
        · intro h
          cases h with
          | cons h1 => exact absurd rfl hab
          | rel h1 => omega

/-- The result of `stringCompare` is zero exactly when the two strings are equal. -/
theorem stringCompare_eq_zero_iff (s t : Bytes) : stringCompare s t = 0 ↔ s = t := by
  induction s generalizing t with
  | nil => cases t <;> simp [stringCompare]
  | cons a s1 ih =>
    cases t with
    | nil => simp [stringCompare]
    | cons b t1 =>
      by_cases hab : a = b
      · subst hab
        simp [stringCompare, ih t1]
      · simp only [stringCompare, bne_iff_ne, ne_eq, hab, not_false_eq_true, if_true,
          List.cons.injEq, false_and, iff_false]
        omega

/-- For a String node `s` and a non-null string operand `t`, compare(s, t) is LESS,
EQUAL or GREATER exactly as `s` is less than, equal to or greater than `t` in the
byte-wise lexicographic order. -/
theorem compare_string_lex (s t : Bytes) :
    (compare (some (.string s)) (.string (some t)) = some .LESS ↔ List.Lex (· < ·) s t) ∧
    (compare (some (.string s)) (.string (some t)) = some .EQUAL ↔ s = t) ∧
    (compare (some (.string s)) (.string (some t)) = some .GREATER ↔
      List.Lex (· < ·) t s) := by
  have hneg := stringCompare_neg_iff t s
  have hzero := stringCompare_eq_zero_iff t s
  have hpos : 0 < stringCompare t s ↔ List.Lex (· < ·) s t := by
    rw [← stringCompare_neg_iff s t]
    exact (stringCompare_swap s t).1.symm
  simp only [compare, VariantConstRef.accept, VariantData.accept, Comparer.visitString,
    adaptString, Option.some.injEq]
  rcases lt_trichotomy (stringCompare t s) 0 with h | h | h
  · have h2 : ¬ 0 < stringCompare t s := by omega
    have h3 : ¬ stringCompare t s = 0 := by omega
    simp only [h, if_true, reduceCtorEq, false_iff, true_iff]
    exact ⟨fun hl => h2 (hpos.2 hl), fun he => h3 (hzero.2 he.symm), hneg.1 h⟩
  · have h1 : ¬ stringCompare t s < 0 := by omega
    have h2 : ¬ 0 < stringCompare t s := by omega
    simp only [h1, h2, if_false, reduceCtorEq, false_iff, true_iff]
    exact ⟨fun hl => h2 (hpos.2 hl), (hzero.1 h).symm, fun hg => h1 (hneg.2 hg)⟩
  · have h1 : ¬ stringCompare t s < 0 := by omega
    have h3 : ¬ stringCompare t s = 0 := by omega
    simp only [h1, h, if_false, if_true, reduceCtorEq, false_iff, true_iff]
    exact ⟨hpos.1 h, fun he => h3 (hzero.2 he.symm), fun hg => h1 (hneg.2 hg)⟩

/-! ### Supporting facts on the raw-bytes strategy -/

/-- The result of `memcmp` only depends on the first `size` bytes of each buffer. -/
theorem memcmp_take (a b : Bytes) (size : Nat) :
    memcmp (a.take size) (b.take size) size = memcmp a b size := by
  induction size generalizing a b with
  | zero => simp [memcmp]
  | succ n ih =>
    cases a with
    | nil => simp [memcmp]
    | cons x a1 =>
      cases b with
      | nil => simp [memcmp]
      | cons y b1 => simp [memcmp, ih]

/-- On buffers of at least `size` bytes, `memcmp` is negative exactly when the first
differing byte among the first `size` is smaller in the first buffer. -/
theorem memcmp_neg_iff (a b : Bytes) (size : Nat) (ha : size ≤ a.length)
    (hb : size ≤ b.length) :
    memcmp a b size < 0 ↔ List.Lex (· < ·) (a.take size) (b.take size) := by
  induction size generalizing a b with
  | zero => simp [memcmp, List.Lex.not_nil_right]
  | succ n ih =>
    cases a with
    | nil => simp at ha
    | cons x a1 =>
      cases b with
      | nil => simp at hb
      | cons y b1 =>
        simp only [List.length_cons, Nat.add_le_add_iff_right] at ha hb
        by_cases hxy : x = y
        · subst hxy
          simp only [memcmp, bne_self_eq_false, Bool.false_eq_true, if_false,
            List.take_succ_cons, ih a1 b1 ha hb]
          exact List.Lex.cons_iff.symm
        · simp only [memcmp, bne_iff_ne, ne_eq, hxy, not_false_eq_true, if_true,
            List.take_succ_cons]
          constructor
          · intro h
            exact List.Lex.rel (by omega)
          · intro h
            cases h with
            | cons h1 => exact absurd rfl hxy
            | rel h1 => omega

/-- On buffers of at least `size` bytes, `memcmp` is positive exactly when the first
differing byte among the first `size` is greater in the first buffer. -/
theorem memcmp_pos_iff (a b : Bytes) (size : Nat) (ha : size ≤ a.length)
    (hb : size ≤ b.length) :
    0 < memcmp a b size ↔ List.Lex (· < ·) (b.take size) (a.take size) := by
  induction size generalizing a b with
  | zero => simp [memcmp, List.Lex.not_nil_right]
  | succ n ih =>
    cases a with
    | nil => simp at ha
    | cons x a1 =>
      cases b with
      | nil => simp at hb
      | cons y b1 =>
        simp only [List.length_cons, Nat.add_le_add_iff_right] at ha hb
        by_cases hxy : x = y
        · subst hxy
          simp only [memcmp, bne_self_eq_false, Bool.false_eq_true, if_false,
            List.take_succ_cons, ih a1 b1 ha hb]
          exact List.Lex.cons_iff.symm
        · have hyx : ¬ y = x := fun h => hxy h.symm
          simp only [memcmp, bne_iff_ne, ne_eq, hxy, not_false_eq_true, if_true,
            List.take_succ_cons]
          constructor
          · intro h
            exact List.Lex.rel (by omega)
          · intro h
            cases h with
            | cons h1 => exact absurd rfl hyx
            | rel h1 => omega

/-- On buffers of at least `size` bytes, `memcmp` is zero exactly when their first `size`
bytes coincide. -/
theorem memcmp_eq_zero_iff (a b : Bytes) (size : Nat) (ha : size ≤ a.length)
    (hb : size ≤ b.length) :
    memcmp a b size = 0 ↔ a.take size = b.take size := by
  induction size generalizing a b with
  | zero => simp [memcmp]
  | succ n ih =>
    cases a with
    | nil => simp at ha
    | cons x a1 =>
      cases b with
      | nil => simp at hb
      | cons y b1 =>
        simp only [List.length_cons, Nat.add_le_add_iff_right] at ha hb
        by_cases hxy : x = y
        · subst hxy
          simp [memcmp, ih a1 b1 ha hb]
        · simp only [memcmp, bne_iff_ne, ne_eq, hxy, not_false_eq_true, if_true,
            List.take_succ_cons, List.cons.injEq, false_and, iff_false]
          omega

/-- The size that `RawComparer::visitRawJson` compares is the smaller of the two sizes. -/
theorem visitRawJson_eq (p q : Bytes) :
    (Comparer.raw q).visitRawJson p =
      if memcmp p q (min p.length q.length) < 0 then .LESS
      else if memcmp p q (min p.length q.length) > 0 then .GREATER
      else .EQUAL := by
  have hm : (if q.length < p.length then q.length else p.length) = min p.length q.length := by
    split_ifs <;> omega
  simp only [Comparer.visitRawJson, hm]

/-- Exchanging node and operand of the raw-bytes strategy exchanges LESS and GREATER. -/
theorem visitRawJson_swap (p q : Bytes) :
    (Comparer.raw q).visitRawJson p
      = VariantComparer.reverse ((Comparer.raw p).visitRawJson q) := by
  rw [visitRawJson_eq p q, visitRawJson_eq q p, Nat.min_comm q.length p.length]
  have hp : min p.length q.length ≤ p.length := Nat.min_le_left _ _
  have hq : min p.length q.length ≤ q.length := Nat.min_le_right _ _
  have h1 := memcmp_neg_iff p q _ hp hq
  have h2 := memcmp_pos_iff p q _ hp hq
  have h3 := memcmp_neg_iff q p _ hq hp
  have h4 := memcmp_pos_iff q p _ hq hp
  rcases lt_trichotomy (memcmp p q (min p.length q.length)) 0 with h | h | h
  · have h5 : 0 < memcmp q p (min p.length q.length) := h4.2 (h1.1 h)
    have h6 : ¬ memcmp q p (min p.length q.length) < 0 := by omega
    simp [h, h5, h6, VariantComparer.reverse]
  · have h5 : ¬ memcmp q p (min p.length q.length) < 0 := fun hh => by
      have := h2.2 (h3.1 hh)
      omega
    have h6 : ¬ 0 < memcmp q p (min p.length q.length) := fun hh => by
      have := h1.2 (h4.1 hh)
      omega
    simp [h, h5, h6, VariantComparer.reverse]
  · have h5 : memcmp q p (min p.length q.length) < 0 := h3.2 (h2.1 h)
    have h6 : ¬ memcmp p q (min p.length q.length) < 0 := by omega
    simp [h, h5, h6, VariantComparer.reverse]

/-- C13: for a Raw node with payload `p` and a raw operand with payload `q`, with
`m = min(|p|, |q|)`, the result of `RawComparer(q).visitRawJson(p)`, which is also
compare(p, q) between the two views, only depends on the first `m` bytes of `p` and of
`q`; it is EQUAL exactly when the two prefixes coincide, LESS exactly when at the first
position where they differ the byte of `p` is smaller, GREATER when it is greater.  So a
payload that extends another one is EQUAL to it, whatever the lengths. -/
theorem raw_compare_bounded_by_shorter (p q ext : Bytes) :
    compare (some (.raw p)) (.variant (some (.raw q)))
      = some ((Comparer.raw q).visitRawJson p) ∧
    (Comparer.raw q).visitRawJson p
      = (Comparer.raw (q.take (min p.length q.length))).visitRawJson
          (p.take (min p.length q.length)) ∧
    ((Comparer.raw q).visitRawJson p = .EQUAL ↔
      p.take (min p.length q.length) = q.take (min p.length q.length)) ∧
    ((Comparer.raw q).visitRawJson p = .LESS ↔
      List.Lex (· < ·) (p.take (min p.length q.length)) (q.take (min p.length q.length))) ∧
    ((Comparer.raw q).visitRawJson p = .GREATER ↔
      List.Lex (· < ·) (q.take (min p.length q.length)) (p.take (min p.length q.length))) ∧
    (Comparer.raw (p ++ ext)).visitRawJson p = .EQUAL ∧
    (Comparer.raw p).visitRawJson (p ++ ext) = .EQUAL := by
  have hp : min p.length q.length ≤ p.length := Nat.min_le_left _ _
  have hq : min p.length q.length ≤ q.length := Nat.min_le_right _ _
  have hneg := memcmp_neg_iff p q _ hp hq
  have hpos := memcmp_pos_iff p q _ hp hq
  have hzero := memcmp_eq_zero_iff p q _ hp hq
  have hequal : ((Comparer.raw q).visitRawJson p = .EQUAL ↔
      p.take (min p.length q.length) = q.take (min p.length q.length)) := by
    rw [visitRawJson_eq, ← hzero]
    split_ifs with h1 h2
    · simp only [reduceCtorEq, false_iff]
      omega
    · simp only [reduceCtorEq, false_iff]
      omega
    · simp only [true_iff]
      omega
  refine ⟨?_, ?_, hequal, ?_, ?_, ?_, ?_⟩
  · simp only [compare, VariantComparer.accept, VariantConstRef.accept, VariantData.accept,
      VariantComparer.comparer, Option.map_some']
    rw [visitRawJson_swap p q]
  · rw [visitRawJson_eq p q, visitRawJson_eq]
    have hl1 : (p.take (min p.length q.length)).length = min p.length q.length := by
      rw [List.length_take]
      omega
    have hl2 : (q.take (min p.length q.length)).length = min p.length q.length := by
      rw [List.length_take]
      omega
    rw [hl1, hl2, Nat.min_self, memcmp_take]
  · rw [visitRawJson_eq, ← hneg]
    split_ifs with h1 h2
    · simp [h1]
    · simp only [reduceCtorEq, false_iff]
      omega
    · simp only [reduceCtorEq, false_iff]
      omega
  · rw [visitRawJson_eq, ← hpos]
    split_ifs with h1 h2
    · simp only [reduceCtorEq, false_iff]
      omega
    · simp [h2]
    · simp only [reduceCtorEq, false_iff]
      omega
  · have h := memcmp_eq_zero_iff p (p ++ ext) (min p.length (p ++ ext).length)
      (Nat.min_le_left _ _) (Nat.min_le_right _ _)
    have hmin : min p.length (p ++ ext).length = p.length := by
      rw [List.length_append]
      omega
    rw [visitRawJson_eq]
    have h0 : memcmp p (p ++ ext) (min p.length (p ++ ext).length) = 0 := by
      rw [h, hmin, List.take_length, List.take_left']
      rfl
    rw [hmin] at h0 ⊢
    simp [h0]
  · have h := memcmp_eq_zero_iff (p ++ ext) p (min (p ++ ext).length p.length)
      (Nat.min_le_left _ _) (Nat.min_le_right _ _)
    have hmin : min (p ++ ext).length p.length = p.length := by
      rw [List.length_append]
      omega
    rw [visitRawJson_eq]
    have h0 : memcmp (p ++ ext) p (min (p ++ ext).length p.length) = 0 := by
      rw [h, hmin, List.take_length, List.take_left']
      rfl
    rw [hmin] at h0 ⊢
    simp [h0]

/-! ### Supporting facts on the allocating resolution -/

/-- The loop of the allocating resolution adds as many null slots as the arena delivers,
at most `count`, and succeeds when it delivers `count`. -/
theorem addSlots_eq (count : Nat) (pool : MemoryPool) (elements : List VariantData) :
    addSlots count pool elements =
      (MemoryPool.mk (pool.free - min count pool.free),
       elements ++ List.replicate (min count pool.free) .null,
       decide (count ≤ pool.free)) := by
  induction count generalizing pool elements with
  | zero =>
    simp [addSlots]
  | succ n ih =>
    obtain ⟨free⟩ := pool
    cases free with
    | zero => simp [addSlots, addSlot]
    | succ m =>
      simp only [addSlots, addSlot, Nat.add_one_ne_zero, if_false, Nat.add_sub_cancel, ih]
      have hmin : min (n + 1) (m + 1) = min n m + 1 := by omega
      simp only [hmin, List.replicate_succ, List.append_assoc, List.singleton_append,
        Nat.add_le_add_iff_right]
      refine Prod.ext ?_ (Prod.ext ?_ rfl)
      · simp only [MemoryPool.mk.injEq]
        omega
      · simp only [List.append_cancel_left_eq]

/-- The allocating resolution of a slot that exists changes nothing. -/
theorem getOrAddElement_present (pool : MemoryPool) (elements : List VariantData)
    (index : Nat) (h : index < elements.length) :
    getOrAddElement pool (some elements) index = (pool, some elements, true) := by
  simp [getOrAddElement, h]

/-- The allocating resolution of an absent slot `index` of an array of `n` slots appends
`index + 1 - n` null slots when the arena delivers them, and as many as it delivers
otherwise. -/
theorem getOrAddElement_absent (pool : MemoryPool) (elements : List VariantData)
    (index : Nat) (h : elements.length ≤ index) :
    getOrAddElement pool (some elements) index =
      (MemoryPool.mk (pool.free - min (index + 1 - elements.length) pool.free),
       some (elements ++ List.replicate (min (index + 1 - elements.length) pool.free) .null),
       decide (index + 1 - elements.length ≤ pool.free)) := by
  have h2 : ¬ index < elements.length := by omega
  simp [getOrAddElement, h2, addSlots_eq]

/-- A write through the proxy for a slot that exists overwrites its node and allocates
nothing. -/
theorem set_present (pool : MemoryPool) (elements : List VariantData) (i : Nat)
    (value : VariantData) (h : i < elements.length) :
    (ElementProxy.mk (some elements) i).set pool value =
      Step.mk true pool (ElementProxy.mk (some (elements.set i value)) i) := by
  simp [ElementProxy.set, ElementProxy.getOrAddUpstreamElementStep,
    getOrAddElement_present pool elements i h, setElement]

/-- A write through the proxy for an absent slot `i` of an array of `n` slots, when the
arena delivers the `i + 1 - n` slots: they are appended and the last one is written. -/
theorem set_absent (pool : MemoryPool) (elements : List VariantData) (i : Nat)
    (value : VariantData) (h : elements.length ≤ i)
    (hroom : i + 1 - elements.length ≤ pool.free) :
    (ElementProxy.mk (some elements) i).set pool value =
      Step.mk true (MemoryPool.mk (pool.free - (i + 1 - elements.length)))
        (ElementProxy.mk
          (some ((elements ++ List.replicate (i + 1 - elements.length) VariantData.null).set i
            value))
          i) := by
  have hmin : min (i + 1 - elements.length) pool.free = i + 1 - elements.length := by omega
  simp [ElementProxy.set, ElementProxy.getOrAddUpstreamElementStep,
    getOrAddElement_absent pool elements i h, setElement, hmin, hroom]

/-- A write through the proxy for an absent slot fails exactly when the arena cannot
deliver the slots up to position `i`; the slots it did deliver stay in the array. -/
theorem set_exhausted (pool : MemoryPool) (elements : List VariantData) (i : Nat)
    (value : VariantData) (h : elements.length ≤ i)
    (hroom : pool.free < i + 1 - elements.length) :
    (ElementProxy.mk (some elements) i).set pool value =
      Step.mk false (MemoryPool.mk 0)
        (ElementProxy.mk (some (elements ++ List.replicate pool.free VariantData.null)) i) := by
  have hmin : min (i + 1 - elements.length) pool.free = pool.free := by omega
  have hno : ¬ i + 1 - elements.length ≤ pool.free := by omega
  simp [ElementProxy.set, ElementProxy.getOrAddUpstreamElementStep,
    getOrAddElement_absent pool elements i h, hmin, hno]

/-- C15, counterexample: positions are counted along the sequence of slots, so no array
of one slot has a position 2: whatever a write does, if it added exactly one slot to the
empty array, position 2 would still be absent.  The write `array[2] = 7` in the empty
array, with room for 5 slots in the arena, succeeds, is read back at position 2, and has
added three slots, not one: the array is [null, null, 7]. -/
theorem write_beyond_end_adds_several_slots :
    (∀ after : List VariantData, after.length = 1 → getElementConst (some after) 2 = none) ∧
    ((ElementProxy.mk (some []) 2).set (MemoryPool.mk 5) (.signedInteger 7)).result = true ∧
    ((ElementProxy.mk (some []) 2).set (MemoryPool.mk 5)
      (.signedInteger 7)).proxy.getUpstreamElementConst = some (.signedInteger 7) ∧
    ((ElementProxy.mk (some []) 2).set (MemoryPool.mk 5) (.signedInteger 7)).proxy.array
      = some [.null, .null, .signedInteger 7] ∧
    ((ElementProxy.mk (some []) 2).set (MemoryPool.mk 5) (.signedInteger 7)).proxy.slotCount
      = 3 ∧
    ((ElementProxy.mk (some []) 2).set (MemoryPool.mk 5) (.signedInteger 7)).pool
      = MemoryPool.mk 2 := by
  refine ⟨?_, rfl, rfl, rfl, rfl, rfl⟩
  intro after h
  simp [getElementConst, h]

/-- C15, amended: for every array of `n` slots and every absent position `i` (so
`n ≤ i`), a successful write through the proxy for `i` adds exactly `i + 1 - n` slots to
the array, taken from the arena: exactly one when `i` is the position just past the end,
and the slots of the positions `n .. i-1` besides, which hold null; the slots that
existed keep their values and position `i` holds the written value; writing again
through a proxy for the same position succeeds and adds no slot. -/
theorem write_materialises_once (pool : MemoryPool) (elements : List VariantData) (i : Nat)
    (value value2 : VariantData) (habsent : elements.length ≤ i)
    (hok : ((ElementProxy.mk (some elements) i).set pool value).result = true) :
    ((ElementProxy.mk (some elements) i).set pool value).proxy.slotCount
      = elements.length + (i + 1 - elements.length) ∧
    ((ElementProxy.mk (some elements) i).set pool value).pool.free + (i + 1 - elements.length)
      = pool.free ∧
    (i = elements.length →
      ((ElementProxy.mk (some elements) i).set pool value).proxy.slotCount
        = elements.length + 1) ∧
    ((ElementProxy.mk (some elements) i).set pool value).proxy.index = i ∧
    ((((ElementProxy.mk (some elements) i).set pool value).proxy.set
        ((ElementProxy.mk (some elements) i).set pool value).pool value2).result = true) ∧
    ((((ElementProxy.mk (some elements) i).set pool value).proxy.set
        ((ElementProxy.mk (some elements) i).set pool value).pool value2).proxy.slotCount
      = ((ElementProxy.mk (some elements) i).set pool value).proxy.slotCount) ∧
    ((((ElementProxy.mk (some elements) i).set pool value).proxy.set
        ((ElementProxy.mk (some elements) i).set pool value).pool value2).pool
      = ((ElementProxy.mk (some elements) i).set pool value).pool) ∧
    (∀ k, elements.length ≤ k → k < i →
      getElementConst ((ElementProxy.mk (some elements) i).set pool value).proxy.array k
        = some .null) ∧
    (∀ k, k < elements.length →
      getElementConst ((ElementProxy.mk (some elements) i).set pool value).proxy.array k
        = getElementConst (some elements) k) ∧
    getElementConst ((ElementProxy.mk (some elements) i).set pool value).proxy.array i
      = some value := by
  have hroom : i + 1 - elements.length ≤ pool.free := by
    by_contra hno
    rw [set_exhausted pool elements i value habsent (by omega)] at hok
    exact absurd hok Bool.false_ne_true
  rw [set_absent pool elements i value habsent hroom]
  have hlen : ((elements ++ List.replicate (i + 1 - elements.length) VariantData.null).set i
      value).length = elements.length + (i + 1 - elements.length) := by
    simp
  have hpresent : i < ((elements ++ List.replicate (i + 1 - elements.length)
      VariantData.null).set i value).length := by
    rw [hlen]
    omega
  simp only [set_present _ _ i value2 hpresent, ElementProxy.slotCount, hlen,
    List.length_set, and_true, true_and, getElementConst]
  refine ⟨by omega, fun h => by omega, ?_, ?_, ?_⟩
  · intro k hk1 hk2
    have hne : i ≠ k := by omega
    rw [List.getElem?_set_ne hne, List.getElem?_append_right hk1]
    simp [List.getElem?_replicate]
    omega
  · intro k hk
    have hne : i ≠ k := by omega
    rw [List.getElem?_set_ne hne, List.getElem?_append_left hk]
  · have hi : i < (elements ++ List.replicate (i + 1 - elements.length)
        VariantData.null).length := by
      simp
      omega
    simp [List.getElem?_set]
    omega

/-- Witness of `write_materialises_once` in the array [1] with room for 4 slots: the
write to position 1 adds one slot, the write to position 3 adds three, and position 2
then holds null. -/
theorem write_materialises_once_witness :
    ((ElementProxy.mk (some [.signedInteger 1]) 1).set (MemoryPool.mk 4)
      (.boolean true)).proxy.slotCount = 2 ∧
    ((ElementProxy.mk (some [.signedInteger 1]) 3).set (MemoryPool.mk 4)
      (.boolean true)).proxy.slotCount = 4 ∧
    getElementConst ((ElementProxy.mk (some [.signedInteger 1]) 3).set (MemoryPool.mk 4)
      (.boolean true)).proxy.array 2 = some .null :=
  ⟨(write_materialises_once (MemoryPool.mk 4) [.signedInteger 1] 1 (.boolean true)
      (.boolean false) (by decide) rfl).2.2.1 rfl,
   (write_materialises_once (MemoryPool.mk 4) [.signedInteger 1] 3 (.boolean true)
      (.boolean false) (by decide) rfl).1,
   (write_materialises_once (MemoryPool.mk 4) [.signedInteger 1] 3 (.boolean true)
      (.boolean false) (by decide) rfl).2.2.2.2.2.2.2.1 2 (by decide) (by decide)⟩

/-- C17: for every array, every index `i` (existing or not) and every value `v` of a
scalar type `T` that is read back as it was stored (which is the case of `bool`, of the
signed and unsigned integral types for the values of their range, and of `double`), if
`set(v)` through the proxy for `i` succeeds, then the same proxy has `is<T>()` true,
`as<T>()` equal to `v` and `isNull()` false, and still denotes index `i`; `set` returns
false only when the arena cannot deliver the slots up to position `i`, and the
assignment `proxy = v` has the same effect. -/
theorem write_then_read {T : Type} (ty : ScalarType T) (pool : MemoryPool)
    (elements : List VariantData) (i : Nat) (v : T) (hv : ty.RoundTrip v) :
    (((ElementProxy.mk (some elements) i).set pool (ty.toJson v)).result = true →
      ((ElementProxy.mk (some elements) i).set pool (ty.toJson v)).proxy.is ty.converter
        = true ∧
      ((ElementProxy.mk (some elements) i).set pool (ty.toJson v)).proxy.as ty.converter
        = v ∧
      ((ElementProxy.mk (some elements) i).set pool (ty.toJson v)).proxy.isNull = false ∧
      ((ElementProxy.mk (some elements) i).set pool (ty.toJson v)).proxy.index = i) ∧
    (((ElementProxy.mk (some elements) i).set pool (ty.toJson v)).result = false →
      elements.length ≤ i ∧ pool.free < i + 1 - elements.length) ∧
    (i + 1 - elements.length ≤ pool.free →
      ((ElementProxy.mk (some elements) i).set pool (ty.toJson v)).result = true) ∧
    ((ElementProxy.mk (some elements) i).assign pool (ty.toJson v)).proxy
      = ((ElementProxy.mk (some elements) i).set pool (ty.toJson v)).proxy ∧
    ((ElementProxy.mk (some elements) i).assign pool (ty.toJson v)).pool
      = ((ElementProxy.mk (some elements) i).set pool (ty.toJson v)).pool ∧
    (∀ b : Bool, boolType.RoundTrip b) ∧
    (∀ (lo hi : Int) ofFloat ofString (x : Int), lo ≤ x → x ≤ hi →
      (integralType lo hi ofFloat ofString).RoundTrip x) ∧
    (∀ (hi : Nat) ofFloat ofString (x : Nat), x ≤ hi →
      (unsignedType hi ofFloat ofString).RoundTrip x) ∧
    (∀ ofString (x : Float), (floatType ofString).RoundTrip x) := by
  have hread : ∀ (l : List VariantData), i < l.length →
      (ElementProxy.mk (some (l.set i (ty.toJson v))) i).getUpstreamElementConst
        = some (ty.toJson v) := by
    intro l hl
    simp [ElementProxy.getUpstreamElementConst, getElementConst, hl]
  have hafter : ∀ (l : List VariantData), i < l.length →
      (ElementProxy.mk (some (l.set i (ty.toJson v))) i).is ty.converter = true ∧
      (ElementProxy.mk (some (l.set i (ty.toJson v))) i).as ty.converter = v ∧
      (ElementProxy.mk (some (l.set i (ty.toJson v))) i).isNull = false ∧
      (ElementProxy.mk (some (l.set i (ty.toJson v))) i).index = i := by
    intro l hl
    have h := hread l hl
    refine ⟨?_, ?_, ?_, rfl⟩
    · simp only [ElementProxy.is, h, VariantConstRef.is]
      exact hv.1
    · simp only [ElementProxy.as, h, VariantConstRef.as]
      exact hv.2.1
    · have h3 := hv.2.2
      simp only [ElementProxy.isNull, h]
      cases hj : ty.toJson v <;> simp_all [VariantConstRef.isNull]
  refine ⟨?_, ?_, ?_, rfl, rfl, ?_, ?_, ?_, ?_⟩
  · intro hok
    by_cases hp : i < elements.length
    · rw [set_present pool elements i _ hp]
      exact hafter elements hp
    · have habsent : elements.length ≤ i := by omega
      have hroom : i + 1 - elements.length ≤ pool.free := by
        by_contra hno
        rw [set_exhausted pool elements i _ habsent (by omega)] at hok
        exact absurd hok Bool.false_ne_true
      rw [set_absent pool elements i _ habsent hroom]
      exact hafter _ (by simp; omega)
  · intro hfail
    by_cases hp : i < elements.length
    · rw [set_present pool elements i _ hp] at hfail
      exact Bool.noConfusion hfail
    · have habsent : elements.length ≤ i := by omega
      refine ⟨habsent, ?_⟩
      by_contra hno
      rw [set_absent pool elements i _ habsent (by omega)] at hfail
      exact Bool.noConfusion hfail
  · intro hroom
    by_cases hp : i < elements.length
    · rw [set_present pool elements i _ hp]
    · rw [set_absent pool elements i _ (by omega) hroom]
  · intro b
    exact ⟨rfl, rfl, rfl⟩
  · intro lo hi ofFloat ofString x hlo hhi
    refine ⟨?_, ?_, rfl⟩
    · simp [integralType, integralConverter, hlo, hhi]
    · simp [integralType, integralConverter, hlo, hhi]
  · intro hi ofFloat ofString x hx
    refine ⟨?_, ?_, rfl⟩
    · simp [unsignedType, unsignedConverter, hx]
    · simp [unsignedType, unsignedConverter, hx]
  · intro ofString x
    exact ⟨rfl, rfl, rfl⟩

/-- Witness of `write_then_read` for a 16-bit `int` and the value 42: written to the
absent position 2 of [1] with room for 3 slots and read back; with room for 1 slot only
the write fails. -/
theorem write_then_read_witness :
    ((ElementProxy.mk (some [.signedInteger 1]) 2).set (MemoryPool.mk 3)
        (.signedInteger 42)).proxy.as
      (integralConverter (-32768) 32767 (fun _ => 0) (fun _ => 0)) = 42 ∧
    (1 ≤ 2 ∧ (MemoryPool.mk 1).free < 2 + 1 - 1) :=
  ⟨((write_then_read (integralType (-32768) 32767 (fun _ => 0) (fun _ => 0))
      (MemoryPool.mk 3) [.signedInteger 1] 2 42
      ⟨by decide, by decide, rfl⟩).1 rfl).2.1,
   (write_then_read (integralType (-32768) 32767 (fun _ => 0) (fun _ => 0))
      (MemoryPool.mk 1) [.signedInteger 1] 2 42
      ⟨by decide, by decide, rfl⟩).2.1 rfl⟩

/-- C18 (createNestedArray() appends an empty array and returns a bound handle to it),
evaluated on the array [1] with room for 3 slots: one element is appended, but it is
null, not an empty array, and the returned handle is unbound, because the new element is
read with `as<ArrayRef>()`, which does not change the node; adding 5 through the returned
handle fails and changes nothing.  For every arena and array the returned handle is
unbound, and the same holds for createNestedObject(). -/
theorem createNested_returns_unbound :
    (ArrayShortcuts.createNestedArray (MemoryPool.mk 3) (some [.signedInteger 1])).array
      = some [.signedInteger 1, .null] ∧
    (ArrayShortcuts.createNestedArray (MemoryPool.mk 3) (some [.signedInteger 1])).pool
      = MemoryPool.mk 2 ∧
    (ArrayShortcuts.createNestedArray (MemoryPool.mk 3) (some [.signedInteger 1])).result
      = none ∧
    (ArrayShortcuts.addValue
        (ArrayShortcuts.createNestedArray (MemoryPool.mk 3) (some [.signedInteger 1])).pool
        (ArrayShortcuts.createNestedArray (MemoryPool.mk 3) (some [.signedInteger 1])).result
        (.signedInteger 5)).result = false ∧
    (∀ pool array, (ArrayShortcuts.createNestedArray pool array).result = none) ∧
    (∀ pool array, (ArrayShortcuts.createNestedObject pool array).result = none) ∧
    (∀ pool elements, 0 < pool.free →
      (ArrayShortcuts.createNestedArray pool (some elements)).array
        = some (elements ++ [.null])) := by
  have hview : ∀ pool array, (ArrayShortcuts.add pool array).view = none ∨
      (ArrayShortcuts.add pool array).view = some .null := by
    intro pool array
    cases array with
    | none => exact Or.inl rfl
    | some elements =>
      by_cases hfree : pool.free = 0
      · left
        simp [ArrayShortcuts.add, variantAddElement, addSlot, hfree, ArrayStep.view]
      · right
        simp [ArrayShortcuts.add, variantAddElement, addSlot, hfree, ArrayStep.view,
          getElementConst]
  refine ⟨rfl, rfl, rfl, rfl, ?_, ?_, ?_⟩
  · intro pool array
    rcases hview pool array with h | h <;>
      simp [ArrayShortcuts.createNestedArray, h, asArrayRef]
  · intro pool array
    rcases hview pool array with h | h <;>
      simp [ArrayShortcuts.createNestedObject, h, asObjectRef]
  · intro pool elements hfree
    have hne : ¬ pool.free = 0 := by omega
    simp [ArrayShortcuts.createNestedArray, ArrayShortcuts.add, variantAddElement, addSlot,
      hne]

/-- C19, counterexample: for `i = j` absent the claim cannot hold, since no array has a
slot 0 that exists and was not created.  With the identity as deep copy, in the empty
array with room for 5 slots the assignment `array[0] = array[0]` creates the slot for
index 0, which is the source slot and was absent; with an exhausted arena it leaves the
array empty, so the slot for the left index does not exist afterwards.  In the same
array with room for 5 slots, `array[2] = array[1]` leaves an array of three slots, among
them the source slot 1. -/
theorem proxy_copy_creates_source_slot :
    (∀ after : List VariantData,
      ¬ (0 < after.length ∧ getElementConst (some after) 0 = none)) ∧
    getElementConst (some []) 0 = none ∧
    getElementConst
      ((ElementProxy.mk (some []) 0).assignProxy (fun pool data => (pool, data, true))
        (MemoryPool.mk 5) 0).proxy.array 0 = some .null ∧
    ((ElementProxy.mk (some []) 0).assignProxy (fun pool data => (pool, data, true))
        (MemoryPool.mk 0) 0).proxy.slotCount = 0 ∧
    getElementConst (some []) 1 = none ∧
    getElementConst
      ((ElementProxy.mk (some []) 2).assignProxy (fun pool data => (pool, data, true))
        (MemoryPool.mk 5) 1).proxy.array 1 = some .null ∧
    ((ElementProxy.mk (some []) 2).assignProxy (fun pool data => (pool, data, true))
        (MemoryPool.mk 5) 1).proxy.slotCount = 3 := by
  refine ⟨?_, rfl, rfl, rfl, rfl, rfl, rfl⟩
  rintro after ⟨hlen, hnone⟩
  cases after with
  | nil => exact absurd hlen (by decide)
  | cons head tail => simp [getElementConst] at hnone

/-- The view that the copy assignment reads at the source position after the allocating
resolution of the destination holds the value that the source slot held before, null when
it was absent and has just been created. -/
theorem padded_source_value (elements : List VariantData) (count j : Nat) :
    ((elements ++ List.replicate count VariantData.null)[j]?).getD .null
      = (elements[j]?).getD .null := by
  by_cases hj : j < elements.length
  · simp [List.getElem?_append_left hj]
  · have hj2 : elements.length ≤ j := by omega
    rw [List.getElem?_append_right hj2, List.getElem?_eq_none hj2]
    by_cases hc : j - elements.length < count
    · simp [List.getElem?_replicate, hc]
    · simp [List.getElem?_replicate, hc]

/-- C19, amended: for every array and indices `i` and `j`, when the allocating resolution
of position `i` succeeds and the copy of the value read at `j` succeeds with an equal
value, after the copy assignment `ElementProxy(array, i) = ElementProxy(array, j)`
element `i` holds a value equal to the one element `j` held before (null if `j` was
absent), the slot for `i` exists, and the left proxy still denotes index `i`; the source
is only read, so the array has exactly the slots that the allocating resolution of `i`
leaves, and the slot for a `j` that was absent and lies beyond position `i` is not
created. -/
theorem proxy_copy_assignment
    (copyFrom : MemoryPool → VariantData → MemoryPool × VariantData × Bool)
    (pool : MemoryPool) (elements : List VariantData) (i j : Nat)
    (hres : ((ElementProxy.mk (some elements) i).getOrAddUpstreamElementStep pool).result
      = true)
    (hcopy : ∀ data,
      getElementConst
        ((ElementProxy.mk (some elements) i).getOrAddUpstreamElementStep pool).proxy.array j
        = some data →
      (copyFrom ((ElementProxy.mk (some elements) i).getOrAddUpstreamElementStep pool).pool
        data).2 = (data, true)) :
    getElementConst
        ((ElementProxy.mk (some elements) i).assignProxy copyFrom pool j).proxy.array i
      = some ((getElementConst (some elements) j).getD .null) ∧
    i < ((ElementProxy.mk (some elements) i).assignProxy copyFrom pool j).proxy.slotCount ∧
    ((ElementProxy.mk (some elements) i).assignProxy copyFrom pool j).proxy.index = i ∧
    ((ElementProxy.mk (some elements) i).assignProxy copyFrom pool j).proxy.slotCount
      = ((ElementProxy.mk (some elements) i).getOrAddUpstreamElementStep pool).proxy.slotCount ∧
    (elements.length ≤ j → i < j →
      getElementConst
        ((ElementProxy.mk (some elements) i).assignProxy copyFrom pool j).proxy.array j
      = none) ∧
    ((ElementProxy.mk (some elements) i).assignProxy copyFrom pool j).proxy.slotCount
      = max elements.length (i + 1) := by
  have hroom : i + 1 - elements.length ≤ pool.free := by
    by_cases hp : i < elements.length
    · omega
    · have hget := getOrAddElement_absent pool elements i (by omega)
      simp [ElementProxy.getOrAddUpstreamElementStep, hget] at hres
      omega
  have hex : ∃ (l : List VariantData) (pl : MemoryPool), l.length = max elements.length (i + 1) ∧
      (l[j]?).getD .null = (elements[j]?).getD .null ∧
      (elements.length ≤ j → i < j → l[j]? = none) ∧
      getOrAddElement pool (some elements) i = (pl, some l, true) := by
    by_cases hp : i < elements.length
    · refine ⟨elements, pool, by omega, rfl, ?_, getOrAddElement_present pool elements i hp⟩
      intro h1 _
      exact List.getElem?_eq_none h1
    · have habsent : elements.length ≤ i := by omega
      have hmin : min (i + 1 - elements.length) pool.free = i + 1 - elements.length := by
        omega
      refine ⟨elements ++ List.replicate (i + 1 - elements.length) VariantData.null,
        MemoryPool.mk (pool.free - (i + 1 - elements.length)), ?_,
        padded_source_value elements _ j, ?_, ?_⟩
      · simp
        omega
      · intro h1 h2
        apply List.getElem?_eq_none
        simp
        omega
      · rw [getOrAddElement_absent pool elements i habsent, hmin]
        simp [hroom]
  obtain ⟨l, pl, hlen, hsrc, hfar, hget⟩ := hex
  have hi : i < l.length := by omega
  have hcopy2 : ∀ data, l[j]? = some data → (copyFrom pl data).2 = (data, true) := by
    intro data hdata
    have h := hcopy data
    simp only [ElementProxy.getOrAddUpstreamElementStep, hget, getElementConst] at h
    exact h hdata
  have hcount : ((ElementProxy.mk (some elements) i).getOrAddUpstreamElementStep
      pool).proxy.slotCount = l.length := by
    simp [ElementProxy.getOrAddUpstreamElementStep, hget, ElementProxy.slotCount]
  have hstep : (ElementProxy.mk (some elements) i).assignProxy copyFrom pool j =
      Step.mk () (match l[j]? with
          | none => pl
          | some data => (copyFrom pl data).1)
        (ElementProxy.mk (some (l.set i ((l[j]?).getD .null))) i) := by
    simp only [ElementProxy.assignProxy, ElementProxy.getOrAddUpstreamElementStep, hget,
      if_true, ElementProxy.getUpstreamElementConst, getElementConst, setElement,
      Option.map_some']
    cases hsv : l[j]? with
    | none => simp
    | some data =>
      have h2 : (copyFrom pl data).2.1 = data := by rw [hcopy2 data hsv]
      simp [h2]
  rw [hstep, hcount]
  simp only [getElementConst, ElementProxy.slotCount, List.length_set, hsrc]
  refine ⟨?_, hi, trivial, trivial, ?_, hlen⟩
  · simp [hi]
  · intro h1 h2
    have hne : i ≠ j := by omega
    rw [List.getElem?_set_ne hne]
    exact hfar h1 h2

/-- Witness of `proxy_copy_assignment` with a deep copy that takes one slot of the arena
and fails when the arena is exhausted: in [1, "a"] with room for 3 slots,
`array[3] = array[1]` makes the array [1, "a", null, "a"]. -/
theorem proxy_copy_assignment_witness :
    getElementConst
        ((ElementProxy.mk (some [.signedInteger 1, .string [97]]) 3).assignProxy
          (fun pool data =>
            if pool.free = 0 then (pool, .null, false)
            else (MemoryPool.mk (pool.free - 1), data, true))
          (MemoryPool.mk 3) 1).proxy.array 3
      = some (.string [97]) ∧
    ((ElementProxy.mk (some [.signedInteger 1, .string [97]]) 3).assignProxy
        (fun pool data =>
          if pool.free = 0 then (pool, .null, false)
          else (MemoryPool.mk (pool.free - 1), data, true))
        (MemoryPool.mk 3) 1).proxy.slotCount = 4 :=
  ⟨(proxy_copy_assignment
      (fun pool data =>
        if pool.free = 0 then (pool, .null, false)
        else (MemoryPool.mk (pool.free - 1), data, true))
      (MemoryPool.mk 3) [.signedInteger 1, .string [97]] 3 1 rfl (fun _ _ => rfl)).1,
   (proxy_copy_assignment
      (fun pool data =>
        if pool.free = 0 then (pool, .null, false)
        else (MemoryPool.mk (pool.free - 1), data, true))
      (MemoryPool.mk 3) [.signedInteger 1, .string [97]] 3 1 rfl
      (fun _ _ => rfl)).2.2.2.2.2⟩

/-- C20 (compare(v, v) is Equal for every variant without a floating-point value),
evaluated at the String node v = "a\0b": compare(v, v) is LESS, `v == v` is false and
`v != v` is true, also for the array [v].  `VariantComparer::visitString` drops the size
of the string, so the strategy's operand ends at the zero byte. -/
theorem compare_not_reflexive_on_zero_byte :
    compare (some (.string [97, 0, 98])) (.variant (some (.string [97, 0, 98])))
      = some .LESS ∧
    opEq (some (.string [97, 0, 98])) (.variant (some (.string [97, 0, 98])))
      = some false ∧
    opNe (some (.string [97, 0, 98])) (.variant (some (.string [97, 0, 98])))
      = some true ∧
    opEq (some (.array [.string [97, 0, 98]])) (.variant (some (.array [.string [97, 0, 98]])))
      = some false := by
  decide

/-! ### Supporting facts on reflexivity -/

/-- The result of `stringCompare` on a string and itself is zero. -/
theorem stringCompare_self (s : Bytes) : stringCompare s s = 0 :=
  (stringCompare_eq_zero_iff s s).2 rfl

/-- The raw-bytes strategy finds a payload EQUAL to itself. -/
theorem visitRawJson_self (p : Bytes) : (Comparer.raw p).visitRawJson p = .EQUAL := by
  have h : memcmp p p (min p.length p.length) = 0 :=
    (memcmp_eq_zero_iff p p _ (Nat.min_le_left _ _) (Nat.min_le_right _ _)).2 rfl
  rw [visitRawJson_eq, h]
  simp

/-- A member of an object with pairwise distinct keys is found under its key. -/
theorem getMember_of_mem (l : List (Bytes × VariantData)) (key : Bytes) (v : VariantData)
    (hk : (l.map Prod.fst).Nodup) (h : (key, v) ∈ l) : getMember l key = some v := by
  induction l with
  | nil => cases h
  | cons m next ih =>
    obtain ⟨k, w⟩ := m
    simp only [List.map_cons, List.nodup_cons] at hk
    rcases List.mem_cons.1 h with heq | hmem
    · cases heq
      simp [getMember]
    · have hne : ¬ k = key := by
        intro e
        apply hk.1
        rw [e]
        exact List.mem_map_of_mem Prod.fst hmem
      simp [getMember, hne, ih hk.2 hmem]

mutual
/-- A regular variant, visited with the strategy built from itself, gives EQUAL. -/
theorem accept_self_of_regular : ∀ (v : VariantData), v.isRegular = true →
    VariantData.accept v (VariantComparer.comparer (some v)) = some .EQUAL
  | .null, _ => rfl
  | .boolean b, _ => by
    simp [VariantData.accept, VariantComparer.comparer, Comparer.visitBoolean,
      Comparer.visitUnsignedInteger, arithmeticCompare]
  | .signedInteger i, _ => by
    simp [VariantData.accept, VariantComparer.comparer, Comparer.visitSignedInteger,
      arithmeticCompare]
  | .unsignedInteger u, _ => by
    simp [VariantData.accept, VariantComparer.comparer, Comparer.visitUnsignedInteger,
      arithmeticCompare]
  | .float f, h => by
    simp [VariantData.isRegular] at h
  | .string s, h => by
    have hs : 0 ∉ s := by simpa [VariantData.isRegular] using h
    simp [VariantData.accept, VariantComparer.comparer, Comparer.visitString, adaptString,
      cstr_eq_self s hs, stringCompare_self]
  | .raw p, _ => by
    simp [VariantData.accept, VariantComparer.comparer, visitRawJson_self]
  | .array elements, h => by
    have h2 : VariantData.allRegular elements = true := by
      simpa [VariantData.isRegular] using h
    simp only [VariantData.accept, VariantComparer.comparer]
    exact visitArray_self_of_regular elements h2
  | .object members, h => by
    have h2 : VariantData.membersRegular members = true ∧ (members.map Prod.fst).Nodup := by
      simpa [VariantData.isRegular] using h
    simp only [VariantData.accept, VariantComparer.comparer]
    rw [visitObject_eq_EQUAL_iff]
    refine ⟨fun m hm => ?_, by simp⟩
    rw [getMember_of_mem members m.1 m.2 h2.2 hm, opNe_variant_eq,
      members_self_of_regular members h2.1 m hm]
    rfl
/-- The array loop on a list of regular variants and itself gives EQUAL. -/
theorem visitArray_self_of_regular : ∀ (l : List VariantData),
    VariantData.allRegular l = true → ArrayComparer.visitArray l l = some .EQUAL
  | [], _ => by simp [ArrayComparer.visitArray]
  | v :: next, h => by
    have h2 : v.isRegular = true ∧ VariantData.allRegular next = true := by
      simpa [VariantData.allRegular] using h
    rw [visitArray_cons_cons, opNe_variant_eq, accept_self_of_regular v h2.1]
    exact visitArray_self_of_regular next h2.2
/-- Every value of a list of regular members, visited with the strategy built from
itself, gives EQUAL. -/
theorem members_self_of_regular : ∀ (l : List (Bytes × VariantData)),
    VariantData.membersRegular l = true → ∀ m ∈ l,
    VariantData.accept m.2 (VariantComparer.comparer (some m.2)) = some .EQUAL
  | [], _, m, hm => by cases hm
  | (k, v) :: next, h, m, hm => by
    have h2 : v.isRegular = true ∧ VariantData.membersRegular next = true := by
      simpa [VariantData.membersRegular] using h
    rcases List.mem_cons.1 hm with heq | hmem
    · subst heq
      exact accept_self_of_regular v h2.1
    · exact members_self_of_regular next h2.2 m hmem
end

/-- Reflexivity where it holds: for every variant without a floating-point value, without
a zero byte in a string and with pairwise distinct keys in its objects, compare(v, v) is
EQUAL, `v == v` is true and `v != v` is false. -/
theorem compare_self_of_regular (v : VariantData) (h : v.isRegular = true) :
    compare (some v) (.variant (some v)) = some .EQUAL ∧
    opEq (some v) (.variant (some v)) = some true ∧
    opNe (some v) (.variant (some v)) = some false := by
  have hc : compare (some v) (.variant (some v)) = some .EQUAL := by
    simp only [compare, VariantComparer.accept, VariantConstRef.accept,
      accept_self_of_regular v h]
    rfl
  refine ⟨hc, ?_, ?_⟩
  · simp only [opEq, eqValueVariant, hc]
    rfl
  · simp only [opNe, neValueVariant, hc]
    rfl

/-- C14: for every arena, every array and every index (present or absent), the pure reads
`isNull()`, `size()`, `memoryUsage()`, `as<T>()` and `is<T>()` of `ElementProxy(array, i)`
leave the arena and the array (hence its slot count and every element) unchanged, and
return what the non-allocating resolution of slot `i` gives. -/
theorem proxy_reads_do_not_allocate {T : Type} (cv : Converter T)
    (usage : VariantData → Nat) (pool : MemoryPool) (array : Option (List VariantData))
    (i : Nat) :
    ((ElementProxy.mk array i).isNullStep pool).pool = pool ∧
    ((ElementProxy.mk array i).isNullStep pool).proxy = ElementProxy.mk array i ∧
    ((ElementProxy.mk array i).isNullStep pool).result = (ElementProxy.mk array i).isNull ∧
    ((ElementProxy.mk array i).sizeStep pool).pool = pool ∧
    ((ElementProxy.mk array i).sizeStep pool).proxy = ElementProxy.mk array i ∧
    ((ElementProxy.mk array i).sizeStep pool).result = (getElementConst array i).size ∧
    ((ElementProxy.mk array i).memoryUsageStep usage pool).pool = pool ∧
    ((ElementProxy.mk array i).memoryUsageStep usage pool).proxy = ElementProxy.mk array i ∧
    ((ElementProxy.mk array i).memoryUsageStep usage pool).result
      = (getElementConst array i).memoryUsage usage ∧
    ((ElementProxy.mk array i).asStep cv pool).pool = pool ∧
    ((ElementProxy.mk array i).asStep cv pool).proxy = ElementProxy.mk array i ∧
    ((ElementProxy.mk array i).asStep cv pool).result = (getElementConst array i).as cv ∧
    ((ElementProxy.mk array i).asWriteableStep cv pool).pool = pool ∧
    ((ElementProxy.mk array i).asWriteableStep cv pool).proxy = ElementProxy.mk array i ∧
    ((ElementProxy.mk array i).isStep cv pool).pool = pool ∧
    ((ElementProxy.mk array i).isStep cv pool).proxy = ElementProxy.mk array i ∧
    ((ElementProxy.mk array i).isStep cv pool).result = (getElementConst array i).is cv ∧
    ((ElementProxy.mk array i).isWriteableStep cv pool).pool = pool ∧
    ((ElementProxy.mk array i).isWriteableStep cv pool).proxy = ElementProxy.mk array i := by
  refine ⟨rfl, rfl, ?_, rfl, rfl, rfl, rfl, rfl, rfl, rfl, rfl, rfl, rfl, rfl, rfl, rfl, rfl,
    rfl, rfl⟩
  simp only [ElementProxy.isNullStep, ElementProxy.getUpstreamElementConstStep,
    ElementProxy.isNull, ElementProxy.getUpstreamElementConst]
  cases h : getElementConst array i with
  | none => rfl
  | some data => cases data <;> rfl

/-- C16: for every array and every index `i` not less than its number of elements, the
proxy for `i` has `isNull()` true, `size()` 0 (`memoryUsage()` 0 as well), and for every
`T` `is<T>()` false and `as<T>()` the default value of `T`, given that `Converter<T>` does
so on an unbound view; this is the case of the converters of `bool`, of the integral
types and of `const char*`. -/
theorem absent_slot_is_unbound (elements : List VariantData) (i : Nat)
    (h : elements.length ≤ i) :
    (ElementProxy.mk (some elements) i).getUpstreamElementConst = none ∧
    (ElementProxy.mk (some elements) i).isNull = true ∧
    (ElementProxy.mk (some elements) i).size = 0 ∧
    (∀ usage, (ElementProxy.mk (some elements) i).memoryUsage usage = 0) ∧
    (∀ (T : Type) (cv : Converter T) (defaultValue : T), cv.UnboundIsDefault defaultValue →
      (ElementProxy.mk (some elements) i).is cv = false ∧
      (ElementProxy.mk (some elements) i).as cv = defaultValue) ∧
    boolConverter.UnboundIsDefault false ∧
    (∀ lo hi ofFloat ofString, (integralConverter lo hi ofFloat ofString).UnboundIsDefault 0) ∧
    cstringConverter.UnboundIsDefault none := by
  have hnone : (ElementProxy.mk (some elements) i).getUpstreamElementConst = none := by
    simp only [ElementProxy.getUpstreamElementConst, getElementConst]
    exact List.getElem?_eq_none h
  refine ⟨hnone, ?_, ?_, ?_, ?_, ⟨rfl, rfl⟩, fun _ _ _ _ => ⟨rfl, rfl⟩, ⟨rfl, rfl⟩⟩
  · simp only [ElementProxy.isNull, hnone]
  · simp only [ElementProxy.size, hnone, VariantConstRef.size]
  · intro usage
    simp only [ElementProxy.memoryUsage, hnone, VariantConstRef.memoryUsage]
  · intro T cv defaultValue hcv
    simp only [ElementProxy.is, ElementProxy.as, hnone, VariantConstRef.is,
      VariantConstRef.as]
    exact hcv

/-- Witness of `absent_slot_is_unbound` at the array [1, 2] and index 2. -/
theorem absent_slot_is_unbound_witness :
    (ElementProxy.mk (some [.signedInteger 1, .signedInteger 2]) 2).isNull = true ∧
    (ElementProxy.mk (some [.signedInteger 1, .signedInteger 2]) 2).size = 0 ∧
    (ElementProxy.mk (some [.signedInteger 1, .signedInteger 2]) 2).is boolConverter
      = false ∧
    (ElementProxy.mk (some [.signedInteger 1, .signedInteger 2]) 2).as boolConverter
      = false :=
  ⟨(absent_slot_is_unbound [.signedInteger 1, .signedInteger 2] 2 (by decide)).2.1,
   (absent_slot_is_unbound [.signedInteger 1, .signedInteger 2] 2 (by decide)).2.2.1,
   ((absent_slot_is_unbound [.signedInteger 1, .signedInteger 2] 2 (by decide)).2.2.2.2.1
      Bool boolConverter false ⟨rfl, rfl⟩).1,
   ((absent_slot_is_unbound [.signedInteger 1, .signedInteger 2] 2 (by decide)).2.2.2.2.1
      Bool boolConverter false ⟨rfl, rfl⟩).2⟩

/-! ## The array loop at the end of the shorter list -/

/-- With the first slot absent and a second element that is not of kind Null, the test
`val1 != val2` holds and the loop returns DIFFER before advancing. -/
theorem visitArray_nil_cons_of_bound (val2 : VariantData) (next2 : List VariantData)
    (h : val2.kind ≠ .Null) :
    ArrayComparer.visitArray [] (val2 :: next2) = some .DIFFER := by
  rw [visitArray_nil_cons, opNe_unbound_eq]
  cases val2 <;> first | rfl | exact absurd rfl h

/-- With the second slot absent and a first element that is not of kind Null, the test
`val1 != val2` holds and the loop returns DIFFER before advancing. -/
theorem visitArray_cons_nil_of_bound (val1 : VariantData) (next1 : List VariantData)
    (h : val1.kind ≠ .Null) :
    ArrayComparer.visitArray (val1 :: next1) [] = some .DIFFER := by
  rw [visitArray_cons_nil]
  cases val1 <;> first | rfl | exact absurd rfl h

/-- C22 (the code departs from the claim): the loop of `ArrayComparer::visitArray` does
advance with exactly one slot absent. When the present slot holds a null node the test
`val1 != val2` is false, so the loop does not return DIFFER and evaluates `next()` on the
absent slot: the empty array against `[null]`, in either order, and `[1]` against
`[1, null]`, in either order, all step past the end of the shorter list, and so does
every pair of lists whose shorter side ends where the longer side holds null. -/
theorem array_loop_advances_from_absent_slot :
    opNe none (.variant (some .null)) = some false ∧
    opNe (some .null) (.variant none) = some false ∧
    ArrayComparer.visitArray [] [.null] = none ∧
    ArrayComparer.visitArray [.null] [] = none ∧
    ArrayComparer.visitArray [.signedInteger 1] [.signedInteger 1, .null] = none ∧
    ArrayComparer.visitArray [.signedInteger 1, .null] [.signedInteger 1] = none ∧
    compare (some (.array [])) (.variant (some (.array [.null]))) = none ∧
    compare (some (.array [.null])) (.variant (some (.array []))) = none ∧
    (∀ next2 : List VariantData,
      ArrayComparer.visitArray [] (VariantData.null :: next2) = none) ∧
    (∀ next1 : List VariantData,
      ArrayComparer.visitArray (VariantData.null :: next1) [] = none) := by
  refine ⟨by decide, by decide, by decide, by decide, by decide, by decide, by decide,
    by decide, ?_, ?_⟩
  · intro next2
    rw [visitArray_nil_cons]
    rfl
  · intro next1
    rw [visitArray_cons_nil]
    rfl

/-! ## Consistency of the six operators -/

/-- The mask test of `operator<=` with the view on the left holds for LESS and EQUAL. -/
theorem test_less_or_equal (r : CompareResult) :
    r.test COMPARE_RESULT_LESS_OR_EQUAL = (r == .LESS || r == .EQUAL) := by
  cases r <;> decide

/-- The mask test of `operator>=` with the view on the left holds for GREATER and
EQUAL. -/
theorem test_greater_or_equal (r : CompareResult) :
    r.test COMPARE_RESULT_GREATER_OR_EQUAL = (r == .GREATER || r == .EQUAL) := by
  cases r <;> decide

/-- Each operator with the value on the left is, for every operand, the same function of
compare(v, x) as the swapped operator with the view on the left. -/
theorem value_left_form_eq_swapped_view_left_form (v : VariantConstRef) (x : Operand) :
    ltValueVariant x v = gtVariantValue v x ∧
    leValueVariant x v = geVariantValue v x ∧
    eqValueVariant x v = eqVariantValue v x ∧
    neValueVariant x v = neVariantValue v x ∧
    gtValueVariant x v = ltVariantValue v x ∧
    geValueVariant x v = leVariantValue v x :=
  ⟨rfl, rfl, rfl, rfl, rfl, rfl⟩

/-- The six operators with the view on the left are consistent with each other: they
are defined together, `<=` is `<` or `==`, `>=` is `>` or `==`, `!=` is the negation of
`==`, and no two of `<`, `==`, `>` hold. -/
theorem view_left_forms_consistent (v : VariantConstRef) (x : Operand) :
    leVariantValue v x
      = (ltVariantValue v x).bind (fun lt => (eqVariantValue v x).map (fun eq => lt || eq)) ∧
    geVariantValue v x
      = (gtVariantValue v x).bind (fun gt => (eqVariantValue v x).map (fun eq => gt || eq)) ∧
    neVariantValue v x = (eqVariantValue v x).map (fun eq => !eq) ∧
    ¬ (ltVariantValue v x = some true ∧ eqVariantValue v x = some true) ∧
    ¬ (ltVariantValue v x = some true ∧ gtVariantValue v x = some true) ∧
    ¬ (eqVariantValue v x = some true ∧ gtVariantValue v x = some true) := by
  unfold leVariantValue geVariantValue ltVariantValue gtVariantValue eqVariantValue
    neVariantValue
  cases compare v x with
  | none => simp
  | some r => cases r <;> simp [test_less_or_equal, test_greater_or_equal] <;> rfl

/-- The six operators with the value on the left are consistent with each other in the
same way. -/
theorem value_left_forms_consistent (x : Operand) (v : VariantConstRef) :
    leValueVariant x v
      = (ltValueVariant x v).bind (fun lt => (eqValueVariant x v).map (fun eq => lt || eq)) ∧
    geValueVariant x v
      = (gtValueVariant x v).bind (fun gt => (eqValueVariant x v).map (fun eq => gt || eq)) ∧
    neValueVariant x v = (eqValueVariant x v).map (fun eq => !eq) ∧
    ¬ (ltValueVariant x v = some true ∧ eqValueVariant x v = some true) ∧
    ¬ (ltValueVariant x v = some true ∧ gtValueVariant x v = some true) ∧
    ¬ (eqValueVariant x v = some true ∧ gtValueVariant x v = some true) := by
  unfold leValueVariant geValueVariant ltValueVariant gtValueVariant eqValueVariant
    neValueVariant
  cases compare v x with
  | none => simp
  | some r => cases r <;> simp [test_less_or_equal, test_greater_or_equal] <;> rfl

/-- The expressions `v op x` with the view on the left are consistent with each other
for every operand, views included: for a fixed pair they all derive from one call of
`compare`. -/
theorem expressions_consistent (v : VariantConstRef) (x : Operand) :
    opLe v x = (opLt v x).bind (fun lt => (opEq v x).map (fun eq => lt || eq)) ∧
    opGe v x = (opGt v x).bind (fun gt => (opEq v x).map (fun eq => gt || eq)) ∧
    opNe v x = (opEq v x).map (fun eq => !eq) ∧
    ¬ (opLt v x = some true ∧ opEq v x = some true) ∧
    ¬ (opLt v x = some true ∧ opGt v x = some true) ∧
    ¬ (opEq v x = some true ∧ opGt v x = some true) := by
  cases x with
  | variant w => exact value_left_forms_consistent (.variant v) w
  | nullptr => exact view_left_forms_consistent v .nullptr
  | string s => exact view_left_forms_consistent v (.string s)
  | float f => exact view_left_forms_consistent v (.float f)
  | signed i => exact view_left_forms_consistent v (.signed i)
  | unsigned u => exact view_left_forms_consistent v (.unsigned u)
  | bool b => exact view_left_forms_consistent v (.bool b)

/-- A strategy that is neither `ArrayComparer` nor `ObjectComparer` runs no loop: every
node accepts it and returns. -/
theorem accept_returns_of_scalar_comparer (data : VariantData) (c : Comparer)
    (harray : ∀ rhs, c ≠ .array rhs) (hobject : ∀ rhs, c ≠ .object rhs) :
    ∃ r, data.accept c = some r := by
  cases data with
  | array lhs =>
    cases c with
    | array rhs => exact absurd rfl (harray rhs)
    | _ => exact ⟨.DIFFER, by simp [VariantData.accept]⟩
  | object lhs =>
    cases c with
    | object rhs => exact absurd rfl (hobject rhs)
    | _ => exact ⟨.DIFFER, by simp [VariantData.accept]⟩
  | _ => exact ⟨_, by rw [VariantData.accept]⟩

/-- For an operand that is not visitable `compare` always returns. -/
theorem compare_returns_of_value (v : VariantConstRef) (x : Operand)
    (hx : x.isVisitable = false) : ∃ r, compare v x = some r := by
  cases x with
  | variant w => exact Bool.noConfusion hx
  | _ =>
    cases v with
    | none => exact ⟨_, rfl⟩
    | some data =>
      exact accept_returns_of_scalar_comparer data _ (fun _ h => Comparer.noConfusion h)
        (fun _ h => Comparer.noConfusion h)

/-- For an operand `x` that is not visitable, the expressions with the value on the left
agree with the swapped expressions with the view on the left, and all of them return:
`(x < v) = (v > x)`, `(x <= v) = (v >= x)`, `(x == v) = (v == x)`, and likewise for the
other three. -/
theorem value_expressions_agree (v : VariantConstRef) (x : Operand)
    (hx : x.isVisitable = false) :
    ltValueVariant x v = opGt v x ∧ leValueVariant x v = opGe v x ∧
    eqValueVariant x v = opEq v x ∧ neValueVariant x v = opNe v x ∧
    gtValueVariant x v = opLt v x ∧ geValueVariant x v = opLe v x ∧
    (opEq v x).isSome = true ∧ (opLt v x).isSome = true ∧ (opGt v x).isSome = true := by
  obtain ⟨r, hr⟩ := compare_returns_of_value v x hx
  cases x with
  | variant w => exact Bool.noConfusion hx
  | _ =>
    simp [opGt, opGe, opEq, opNe, opLt, opLe, ltValueVariant, leValueVariant,
      eqValueVariant, neValueVariant, gtValueVariant, geValueVariant, gtVariantValue,
      geVariantValue, eqVariantValue, neVariantValue, ltVariantValue, leVariantValue, hr]

/-- C21 (the code departs from the claim): between two views the forms with the operands
swapped disagree. With x = {"a":1} and v = {"b":null}, `x == v` is false and `v == x` is
true; with the strings x = "a\0c" and v = "a\0b", `x < v` is false while `v > x` is
true, and `x <= v` is false while `v >= x` is true. -/
theorem swapped_view_operators_disagree :
    opEq (some (.object [([97], .signedInteger 1)]))
        (.variant (some (.object [([98], .null)]))) = some false ∧
    opEq (some (.object [([98], .null)]))
        (.variant (some (.object [([97], .signedInteger 1)]))) = some true ∧
    opLt (some (.string [97, 0, 99])) (.variant (some (.string [97, 0, 98]))) = some false ∧
    opGt (some (.string [97, 0, 98])) (.variant (some (.string [97, 0, 99]))) = some true ∧
    opLe (some (.string [97, 0, 99])) (.variant (some (.string [97, 0, 98]))) = some false ∧
    opGe (some (.string [97, 0, 98])) (.variant (some (.string [97, 0, 99]))) = some true := by
  decide

/-! ## The copies of `operator|` -/

end ArduinoJson
